import Mathlib

/-!
Verification of the wait/kill coordination of `SharedChild` (src/lib.rs):
a three-state machine (`NotWaiting` / `Waiting` / `Exited`) guarded by a
mutex and a condition variable lets many threads call `wait`, `try_wait`
and `kill` concurrently, with at most one thread performing the blocking
platform wait at any instant.

Two layers:
* a sequential embedding of each operation as a pure function of the
  coordinator state, the modelled OS process and the platform call
  results, with an event log recording platform calls and condvar
  broadcasts (mirroring the bodies of `wait`, `try_wait`, `kill`);
* a small-step interleaving semantics of any number of threads running
  these operations, with explicit lock ownership and ghost counters,
  over which the concurrency invariants are proved.
-/

/-- Exit status of the child process (`std::process::ExitStatus`),
modelled by its raw numeric value. -/
abbrev ExitStatus := Nat

/-- `std::io::Error`: either an OS-level error (carrying a numeric
code) or a constructed error such as
`io::Error::new(io::ErrorKind::Other, msg)`. -/
inductive IoErr where
  | os (code : Nat)
  | other (msg : String)
deriving DecidableEq, Repr

/-- `enum ChildState` from src/lib.rs (lines 171-175). -/
inductive ChildState where
  | NotWaiting
  | Waiting
  | Exited (status : ExitStatus)
deriving DecidableEq, Repr

/-- The OS's view of the child process: still running, exited with its
exit record still pending, or exited and reaped (record consumed, so
the pid may be reused). -/
inductive OsProc where
  | running
  | exited (status : ExitStatus)
  | reaped (status : ExitStatus)
deriving DecidableEq, Repr

/-- Modelled from the spec: the platform operation
`sys::try_wait(raw_handle)` (src/unix.rs and src/windows.rs are not
among the sources at hand, only their interface from section 6 of the
spec). Non-blocking check: if the process has exited, it consumes
("reaps") the exit record and returns the status; if it is still
running it returns `none` with no side effect; polling a process whose
exit record was already consumed is an OS error. -/
def osTryWait : OsProc → OsProc × Except IoErr (Option ExitStatus)
  | .running => (.running, .ok none)
  | .exited s => (.reaped s, .ok (some s))
  | .reaped s => (.reaped s, .error (.os 10))

/-- A platform poll as seen by the caller: the environment may inject
an OS failure (`some e`), otherwise the call follows the OS model. -/
def sysTryWait (os : OsProc) : Option IoErr → OsProc × Except IoErr (Option ExitStatus)
  | some e => (os, .error e)
  | none => osTryWait os

/-- Modelled from the spec: `sys::wait_without_reaping(raw_handle)`
blocks until the process has exited, without consuming the exit
record; the environment may inject an OS failure. `none` means the
call has not returned (the process is still running and no failure
occurred). -/
def sysWaitWithoutReaping (os : OsProc) : Option IoErr → Option (Except IoErr Unit)
  | some e => some (.error e)
  | none =>
    match os with
    | .running => none
    | _ => some (.ok ())

/-- Observable effects of one operation: platform calls and condvar
broadcasts. -/
inductive Event where
  | evTryWait
  | evBlockingWait
  | evKillSignal
  | evNotifyAll
deriving DecidableEq, Repr

namespace SharedChild

/-- `SharedChild::try_wait` (src/lib.rs lines 134-157) as a function of
the coordinator state, the OS process and an optional injected platform
failure. Returns the new state, the new OS state, the result, and the
event log (`evTryWait` marks the one platform poll). -/
def try_wait (st : ChildState) (os : OsProc) (inj : Option IoErr) :
    ChildState × OsProc × Except IoErr (Option ExitStatus) × List Event :=
  match st with
  | .Waiting => (.Waiting, os, .ok none, [])
  | .Exited s => (.Exited s, os, .ok (some s), [])
  | .NotWaiting =>
    match sysTryWait os inj with
    | (os2, .error e) => (.NotWaiting, os2, .error e, [.evTryWait])
    | (os2, .ok (some s)) => (.Exited s, os2, .ok (some s), [.evTryWait])
    | (os2, .ok none) => (.NotWaiting, os2, .ok none, [.evTryWait])

/-- `SharedChild::kill` (src/lib.rs lines 161-168): if the state is
`Exited` return `Ok(())` without signaling; otherwise lock the process
object and send the kill signal, whose outcome `sig` the platform
decides. -/
def kill (st : ChildState) (os : OsProc) (sig : Except IoErr Unit) :
    ChildState × OsProc × Except IoErr Unit × List Event :=
  match st with
  | .Exited s => (.Exited s, os, .ok (), [])
  | st => (st, os, sig, [.evKillSignal])

/-- One examination of the state inside the loop of `wait`
(src/lib.rs lines 72-89). -/
inductive WaitCheck where
  | becomeWaiter
  | blockOnCondvar
  | retStatus (s : ExitStatus)
deriving DecidableEq, Repr

/-- The loop of `wait`: `NotWaiting` breaks out (this thread becomes
the waiter), `Waiting` blocks on the condvar, `Exited` returns the
cached status. -/
def waitCheck : ChildState → WaitCheck
  | .NotWaiting => .becomeWaiter
  | .Waiting => .blockOnCondvar
  | .Exited s => .retStatus s

/-- `noreap_result.and_then(|_| ...)` (src/lib.rs lines 114-122): the
closure reaps only when the blocking wait succeeded; a reap returning
"still running" after the blocking wait reported exit is the internal
inconsistency error. -/
def waitFinalResult (noreap : Except IoErr Unit)
    (reap : Except IoErr (Option ExitStatus)) : Except IoErr ExitStatus :=
  match noreap with
  | .error e => .error e
  | .ok _ =>
    match reap with
    | .error e => .error e
    | .ok (some s) => .ok s
    | .ok none => .error (.other "blocking wait after child exit")

/-- The tail of `wait` after the blocking platform wait returned
(src/lib.rs lines 113-129): re-acquire the state lock; when the
blocking wait succeeded, call `sys::try_wait` (the `and_then` closure
is skipped when the blocking wait failed, so no reap is attempted
then); set the state from the final result (`Exited` on success,
`NotWaiting` on any error); `notify_all`; return the final result. -/
def waitEpilogue (os : OsProc) (noreap : Except IoErr Unit) (injReap : Option IoErr) :
    ChildState × OsProc × Except IoErr ExitStatus × List Event :=
  match noreap with
  | .error e => (.NotWaiting, os, .error e, [.evNotifyAll])
  | .ok _ =>
    let p := sysTryWait os injReap
    let final := waitFinalResult (.ok ()) p.2
    let st2 : ChildState :=
      match final with
      | .ok s => .Exited s
      | .error _ => .NotWaiting
    (st2, p.1, final, [.evTryWait, .evNotifyAll])

/-- A sequential (single-threaded, interference-free) run of
`SharedChild::wait` (src/lib.rs lines 70-130). `none` means the call
blocks forever (state `Waiting` with nobody to wake us, or a child
that never exits). -/
def wait (st : ChildState) (os : OsProc) (injNoreap injReap : Option IoErr) :
    Option (ChildState × OsProc × Except IoErr ExitStatus × List Event) :=
  match waitCheck st with
  | .retStatus s => some (.Exited s, os, .ok s, [])
  | .blockOnCondvar => none
  | .becomeWaiter =>
    match sysWaitWithoutReaping os injNoreap with
    | none => none
    | some noreap =>
      let r := waitEpilogue os noreap injReap
      some (r.1, r.2.1, r.2.2.1, .evBlockingWait :: r.2.2.2)

end SharedChild

instance {ε α : Type} [DecidableEq ε] [DecidableEq α] : DecidableEq (Except ε α) := fun a b =>
  match a, b with
  | .ok x, .ok y =>
    if h : x = y then .isTrue (by rw [h]) else .isFalse (by simp [h])
  | .error x, .error y =>
    if h : x = y then .isTrue (by rw [h]) else .isFalse (by simp [h])
  | .ok _, .error _ => .isFalse (by simp)
  | .error _, .ok _ => .isFalse (by simp)

namespace Proto

/-- Return value of a finished operation (`wait`, `try_wait`, `kill`
respectively). -/
inductive RetVal where
  | wRet (r : Except IoErr ExitStatus)
  | tRet (r : Except IoErr (Option ExitStatus))
  | kRet (r : Except IoErr Unit)
deriving DecidableEq, Repr

/-- Program counter of one thread running one operation of
`SharedChild` (src/lib.rs). The `w` points are the locations of
`wait` (lines 70-130), the `t` points those of `try_wait` (lines
134-157), the `k` points those of `kill` (lines 161-168). -/
inductive ThreadProg where
  /-- line 71: about to acquire the state lock -/
  | wLock
  /-- lines 72-89: holding the state lock, examining the state -/
  | wCheck
  /-- line 85: released the lock inside `Condvar::wait`, queued -/
  | wBlocked
  /-- woken from the condvar (broadcast or spurious wakeup), about to
  re-acquire the state lock inside `Condvar::wait` -/
  | wWake
  /-- line 107: set `Waiting` and released the lock, inside
  `sys::wait_without_reaping` -/
  | wSys
  /-- line 113: the blocking wait returned `noreap`, about to
  re-acquire the state lock -/
  | wRelock (noreap : Except IoErr Unit)
  /-- lines 114-129: holding the state lock again, about to run the
  `and_then` closure, set the final state and `notify_all` -/
  | wReap (noreap : Except IoErr Unit)
  /-- line 135: about to acquire the state lock -/
  | tLock
  /-- lines 141-145: holding the state lock, examining the state -/
  | tCheck
  /-- lines 151-156: holding the state lock, state was `NotWaiting`,
  performing the non-blocking `sys::try_wait` poll -/
  | tPoll
  /-- line 162: about to acquire the state lock -/
  | kLock
  /-- lines 163-165: holding the state lock, examining the state -/
  | kCheck
  /-- line 167: state not `Exited`; still holding the state lock (the
  guard `status` lives to the end of the function), about to acquire
  the child lock -/
  | kAcqChild
  /-- line 167: holding both the state lock and the child lock,
  sending the kill signal -/
  | kSignal
  /-- the operation returned -/
  | done (r : RetVal)
deriving DecidableEq, Repr

/-- One interleaved execution: the shared coordinator state, lock
ownership, the OS process, each thread's program counter, and ghost
instrumentation (number of OS reaps performed, which threads performed
the blocking platform wait, number of injected platform failures). -/
structure Config (n : Nat) where
  childState : ChildState
  stateLockHolder : Option (Fin n)
  childLockHolder : Option (Fin n)
  os : OsProc
  threads : Fin n → ThreadProg
  reapCount : Nat
  waited : Fin n → Bool
  errs : Nat

/-- Who performs a step: one of the threads, or the environment (the
child process itself exiting). -/
inductive Label (n : Nat) where
  | thread (t : Fin n)
  | env

/-- Small-step interleaving semantics of `wait` / `try_wait` / `kill`
(src/lib.rs lines 70-168) plus the environment. Every mutation of
`childState` happens in a step whose hypotheses include holding the
state lock, exactly as in the source where the state sits behind
`state_lock`. -/
inductive Step : {n : Nat} → Label n → Config n → Config n → Prop where
  /-- `wait` line 71: acquire the state lock. -/
  | wLockAcq (c : Config n) (t : Fin n)
      (hpc : c.threads t = .wLock) (hfree : c.stateLockHolder = none) :
      Step (.thread t) c
        { c with stateLockHolder := some t,
                 threads := Function.update c.threads t .wCheck }
  /-- lines 74-79 and 96-97: the state is `NotWaiting`; break out of
  the loop, set `Waiting`, release the lock, start the blocking
  platform wait (ghost: record that this thread performs it). -/
  | wCheckNotWaiting (c : Config n) (t : Fin n)
      (hpc : c.threads t = .wCheck) (hold : c.stateLockHolder = some t)
      (hst : c.childState = .NotWaiting) :
      Step (.thread t) c
        { c with childState := .Waiting,
                 stateLockHolder := none,
                 threads := Function.update c.threads t .wSys,
                 waited := Function.update c.waited t true }
  /-- lines 80-86: the state is `Waiting`; `Condvar::wait` releases
  the lock and queues this thread. -/
  | wCheckWaiting (c : Config n) (t : Fin n)
      (hpc : c.threads t = .wCheck) (hold : c.stateLockHolder = some t)
      (hst : c.childState = .Waiting) :
      Step (.thread t) c
        { c with stateLockHolder := none,
                 threads := Function.update c.threads t .wBlocked }
  /-- line 87: the state is `Exited`; return the cached status. -/
  | wCheckExited (c : Config n) (t : Fin n) (s : ExitStatus)
      (hpc : c.threads t = .wCheck) (hold : c.stateLockHolder = some t)
      (hst : c.childState = .Exited s) :
      Step (.thread t) c
        { c with stateLockHolder := none,
                 threads := Function.update c.threads t (.done (.wRet (.ok s))) }
  /-- a queued thread leaves the condvar queue (broadcast by the
  waiter, or a spurious wakeup). -/
  | wWakeup (c : Config n) (t : Fin n)
      (hpc : c.threads t = .wBlocked) :
      Step (.thread t) c
        { c with threads := Function.update c.threads t .wWake }
  /-- `Condvar::wait` re-acquires the state lock before returning into
  the loop. -/
  | wWakeAcq (c : Config n) (t : Fin n)
      (hpc : c.threads t = .wWake) (hfree : c.stateLockHolder = none) :
      Step (.thread t) c
        { c with stateLockHolder := some t,
                 threads := Function.update c.threads t .wCheck }
  /-- line 107: the blocking non-reaping wait returns `Ok` once the
  child has exited (the exit record, consumed or not, proves exit). -/
  | wSysOk (c : Config n) (t : Fin n)
      (hpc : c.threads t = .wSys) (hos : c.os ≠ .running) :
      Step (.thread t) c
        { c with threads := Function.update c.threads t (.wRelock (.ok ())) }
  /-- line 107: the platform may fail the blocking wait. -/
  | wSysErr (c : Config n) (t : Fin n) (e : IoErr)
      (hpc : c.threads t = .wSys) :
      Step (.thread t) c
        { c with threads := Function.update c.threads t (.wRelock (.error e)),
                 errs := c.errs + 1 }
  /-- line 113: re-acquire the state lock. -/
  | wRelockAcq (c : Config n) (t : Fin n) (nr : Except IoErr Unit)
      (hpc : c.threads t = .wRelock nr) (hfree : c.stateLockHolder = none) :
      Step (.thread t) c
        { c with stateLockHolder := some t,
                 threads := Function.update c.threads t (.wReap nr) }
  /-- lines 114-129, blocking wait failed: `and_then` skips the reap
  closure; revert to `NotWaiting`, `notify_all`, return the error. -/
  | wReapNoreapErr (c : Config n) (t : Fin n) (e : IoErr)
      (hpc : c.threads t = .wReap (.error e)) (hold : c.stateLockHolder = some t) :
      Step (.thread t) c
        { c with childState := .NotWaiting,
                 stateLockHolder := none,
                 threads := Function.update c.threads t (.done (.wRet (.error e))) }
  /-- lines 114-129, blocking wait succeeded and `sys::try_wait` reaps
  the exited child: transition to `Exited`, `notify_all`, return the
  status. -/
  | wReapOk (c : Config n) (t : Fin n) (s : ExitStatus)
      (hpc : c.threads t = .wReap (.ok ())) (hold : c.stateLockHolder = some t)
      (hos : c.os = .exited s) :
      Step (.thread t) c
        { c with childState := .Exited s,
                 os := .reaped s,
                 reapCount := c.reapCount + 1,
                 stateLockHolder := none,
                 threads := Function.update c.threads t (.done (.wRet (.ok s))) }
  /-- lines 118-121: `sys::try_wait` says "still running" after the
  blocking wait reported exit: internal inconsistency error, revert to
  `NotWaiting`. -/
  | wReapStillRunning (c : Config n) (t : Fin n)
      (hpc : c.threads t = .wReap (.ok ())) (hold : c.stateLockHolder = some t)
      (hos : c.os = .running) :
      Step (.thread t) c
        { c with childState := .NotWaiting,
                 stateLockHolder := none,
                 threads := Function.update c.threads t
                   (.done (.wRet (.error (.other "blocking wait after child exit")))) }
  /-- `sys::try_wait` on an already reaped process is an OS error
  (unreachable under the protocol invariants). -/
  | wReapAlreadyReaped (c : Config n) (t : Fin n) (s : ExitStatus)
      (hpc : c.threads t = .wReap (.ok ())) (hold : c.stateLockHolder = some t)
      (hos : c.os = .reaped s) :
      Step (.thread t) c
        { c with childState := .NotWaiting,
                 stateLockHolder := none,
                 threads := Function.update c.threads t
                   (.done (.wRet (.error (.os 10)))) }
  /-- the platform may fail the final reap. -/
  | wReapInjErr (c : Config n) (t : Fin n) (e : IoErr)
      (hpc : c.threads t = .wReap (.ok ())) (hold : c.stateLockHolder = some t) :
      Step (.thread t) c
        { c with childState := .NotWaiting,
                 stateLockHolder := none,
                 threads := Function.update c.threads t (.done (.wRet (.error e))),
                 errs := c.errs + 1 }
  /-- `try_wait` line 135: acquire the state lock. -/
  | tLockAcq (c : Config n) (t : Fin n)
      (hpc : c.threads t = .tLock) (hfree : c.stateLockHolder = none) :
      Step (.thread t) c
        { c with stateLockHolder := some t,
                 threads := Function.update c.threads t .tCheck }
  /-- line 143: state `Waiting`: return `Ok(None)` immediately. -/
  | tCheckWaiting (c : Config n) (t : Fin n)
      (hpc : c.threads t = .tCheck) (hold : c.stateLockHolder = some t)
      (hst : c.childState = .Waiting) :
      Step (.thread t) c
        { c with stateLockHolder := none,
                 threads := Function.update c.threads t (.done (.tRet (.ok none))) }
  /-- line 144: state `Exited`: return the cached status. -/
  | tCheckExited (c : Config n) (t : Fin n) (s : ExitStatus)
      (hpc : c.threads t = .tCheck) (hold : c.stateLockHolder = some t)
      (hst : c.childState = .Exited s) :
      Step (.thread t) c
        { c with stateLockHolder := none,
                 threads := Function.update c.threads t (.done (.tRet (.ok (some s)))) }
  /-- line 142: state `NotWaiting`: fall through to the non-blocking
  poll, still holding the state lock. -/
  | tCheckNotWaiting (c : Config n) (t : Fin n)
      (hpc : c.threads t = .tCheck) (hold : c.stateLockHolder = some t)
      (hst : c.childState = .NotWaiting) :
      Step (.thread t) c
        { c with threads := Function.update c.threads t .tPoll }
  /-- lines 151-153: the poll finds the child exited: reap it,
  transition to `Exited`, return the status. -/
  | tPollExited (c : Config n) (t : Fin n) (s : ExitStatus)
      (hpc : c.threads t = .tPoll) (hold : c.stateLockHolder = some t)
      (hos : c.os = .exited s) :
      Step (.thread t) c
        { c with childState := .Exited s,
                 os := .reaped s,
                 reapCount := c.reapCount + 1,
                 stateLockHolder := none,
                 threads := Function.update c.threads t (.done (.tRet (.ok (some s)))) }
  /-- lines 154-156: the poll finds the child still running: return
  `Ok(None)` and leave the state unchanged. -/
  | tPollRunning (c : Config n) (t : Fin n)
      (hpc : c.threads t = .tPoll) (hold : c.stateLockHolder = some t)
      (hos : c.os = .running) :
      Step (.thread t) c
        { c with stateLockHolder := none,
                 threads := Function.update c.threads t (.done (.tRet (.ok none))) }
  /-- polling an already reaped process is an OS error (unreachable
  under the protocol invariants). -/
  | tPollReaped (c : Config n) (t : Fin n) (s : ExitStatus)
      (hpc : c.threads t = .tPoll) (hold : c.stateLockHolder = some t)
      (hos : c.os = .reaped s) :
      Step (.thread t) c
        { c with stateLockHolder := none,
                 threads := Function.update c.threads t
                   (.done (.tRet (.error (.os 10)))) }
  /-- line 151: the platform may fail the poll (`?` propagates the
  error; the state is left unchanged). -/
  | tPollInjErr (c : Config n) (t : Fin n) (e : IoErr)
      (hpc : c.threads t = .tPoll) (hold : c.stateLockHolder = some t) :
      Step (.thread t) c
        { c with stateLockHolder := none,
                 threads := Function.update c.threads t (.done (.tRet (.error e))),
                 errs := c.errs + 1 }
  /-- `kill` line 162: acquire the state lock. -/
  | kLockAcq (c : Config n) (t : Fin n)
      (hpc : c.threads t = .kLock) (hfree : c.stateLockHolder = none) :
      Step (.thread t) c
        { c with stateLockHolder := some t,
                 threads := Function.update c.threads t .kCheck }
  /-- lines 163-165: state `Exited`: return `Ok(())` without
  signaling (the guard is dropped by the early return). -/
  | kCheckExited (c : Config n) (t : Fin n) (s : ExitStatus)
      (hpc : c.threads t = .kCheck) (hold : c.stateLockHolder = some t)
      (hst : c.childState = .Exited s) :
      Step (.thread t) c
        { c with stateLockHolder := none,
                 threads := Function.update c.threads t (.done (.kRet (.ok ()))) }
  /-- line 167: state not `Exited`: proceed to the child lock, still
  holding the state lock (the guard `status` lives to the end of the
  function body). -/
  | kCheckLive (c : Config n) (t : Fin n)
      (hpc : c.threads t = .kCheck) (hold : c.stateLockHolder = some t)
      (hst : ∀ s, c.childState ≠ .Exited s) :
      Step (.thread t) c
        { c with threads := Function.update c.threads t .kAcqChild }
  /-- line 167: acquire the child (process-object) lock. -/
  | kChildAcq (c : Config n) (t : Fin n)
      (hpc : c.threads t = .kAcqChild) (hold : c.stateLockHolder = some t)
      (hchild : c.childLockHolder = none) :
      Step (.thread t) c
        { c with childLockHolder := some t,
                 threads := Function.update c.threads t .kSignal }
  /-- line 167: `Child::kill` succeeds; both guards are dropped at the
  end of the function. -/
  | kSignalOk (c : Config n) (t : Fin n)
      (hpc : c.threads t = .kSignal) (hold : c.stateLockHolder = some t)
      (hchild : c.childLockHolder = some t) :
      Step (.thread t) c
        { c with stateLockHolder := none,
                 childLockHolder := none,
                 threads := Function.update c.threads t (.done (.kRet (.ok ()))) }
  /-- line 167: `Child::kill` fails; both guards are dropped at the
  end of the function. -/
  | kSignalErr (c : Config n) (t : Fin n) (e : IoErr)
      (hpc : c.threads t = .kSignal) (hold : c.stateLockHolder = some t)
      (hchild : c.childLockHolder = some t) :
      Step (.thread t) c
        { c with stateLockHolder := none,
                 childLockHolder := none,
                 threads := Function.update c.threads t (.done (.kRet (.error e))),
                 errs := c.errs + 1 }
  /-- environment: the child process exits with some status. -/
  | procExit (c : Config n) (s : ExitStatus)
      (hos : c.os = .running) :
      Step .env c { c with os := .exited s }

/-- A thread may begin at the entry of `wait`, `try_wait` or `kill`. -/
def entryPc (p : ThreadProg) : Prop :=
  p = .wLock ∨ p = .tLock ∨ p = .kLock

/-- Initial configurations: freshly spawned child (running, unreaped),
coordinator in `NotWaiting`, both locks free, all threads at an entry
point, ghost counters zeroed. -/
structure Init {n : Nat} (c : Config n) : Prop where
  hstate : c.childState = .NotWaiting
  hlock : c.stateLockHolder = none
  hchild : c.childLockHolder = none
  hos : c.os = .running
  hthreads : ∀ t, entryPc (c.threads t)
  hreap : c.reapCount = 0
  hwaited : ∀ t, c.waited t = false
  herrs : c.errs = 0

/-- Some thread or the environment makes a step. -/
def StepAny {n : Nat} (c c2 : Config n) : Prop := ∃ l, Step l c c2

/-- Multi-step execution. -/
def Reach {n : Nat} : Config n → Config n → Prop :=
  Relation.ReflTransGen StepAny

/-- Configurations reachable from some initial configuration. -/
def Reachable {n : Nat} (c : Config n) : Prop :=
  ∃ c0, Init c0 ∧ Reach c0 c

/-- Program points at which the thread holds the state lock. -/
def holdsState : ThreadProg → Bool
  | .wCheck => true
  | .wReap _ => true
  | .tCheck => true
  | .tPoll => true
  | .kCheck => true
  | .kAcqChild => true
  | .kSignal => true
  | _ => false

/-- Program points of the `Waiting` critical section: from setting the
state to `Waiting` (line 96) until leaving it (lines 123-127) the
thread is the one waiter. -/
def inSection : ThreadProg → Bool
  | .wSys => true
  | .wRelock _ => true
  | .wReap _ => true
  | _ => false

/-- The operation has returned. -/
def isDone : ThreadProg → Bool
  | .done _ => true
  | _ => false

/-- Program points of the `wait` operation (including its return). -/
def waitPc : ThreadProg → Prop
  | .wLock | .wCheck | .wBlocked | .wWake | .wSys | .wRelock _ | .wReap _ => True
  | .done (.wRet _) => True
  | _ => False

/-- The protocol invariant, preserved by every step from every initial
configuration: lock ownership matches program points, the `Waiting`
state matches exactly one thread being inside the waiter's critical
section, the OS exit record is consumed exactly when the coordinator
reached `Exited`, and the ghost instrumentation is coherent. -/
structure Inv {n : Nat} (c : Config n) : Prop where
  lockState : ∀ t, holdsState (c.threads t) = true ↔ c.stateLockHolder = some t
  lockChild : ∀ t, c.threads t = .kSignal ↔ c.childLockHolder = some t
  secWaiting : ∀ t, inSection (c.threads t) = true → c.childState = .Waiting
  secUnique : ∀ t u, inSection (c.threads t) = true → inSection (c.threads u) = true → t = u
  waitingSec : c.childState = .Waiting → ∃ t, inSection (c.threads t) = true
  osReaped : ∀ s, c.os = .reaped s ↔ c.childState = .Exited s
  reapOnce : c.reapCount = (match c.os with | .reaped _ => 1 | _ => 0)
  tPollNW : ∀ t, c.threads t = .tPoll → c.childState = .NotWaiting
  relockNR : ∀ t, (c.threads t = .wRelock (.ok ()) ∨ c.threads t = .wReap (.ok ())) →
    c.os ≠ .running
  doneOkExited : ∀ t s, c.threads t = .done (.wRet (.ok s)) → c.childState = .Exited s
  secWaited : ∀ t, inSection (c.threads t) = true → c.waited t = true
  waitedUnique : c.errs = 0 → ∀ t u, c.waited t = true → c.waited u = true → t = u
  waitedNW : c.errs = 0 → c.childState = .NotWaiting → ∀ t, c.waited t = false
  noWErr : c.errs = 0 → ∀ t e, c.threads t ≠ .wRelock (.error e) ∧
    c.threads t ≠ .wReap (.error e) ∧ c.threads t ≠ .done (.wRet (.error e))

/-- Additional invariant for executions in which every thread runs `wait`
(the setting of the N-concurrent-waiters property): all program points
belong to `wait`, and once the coordinator reached `Exited`, some thread
performed the blocking platform wait. -/
structure WInv {n : Nat} (c : Config n) : Prop where
  onlyWait : ∀ t, waitPc (c.threads t)
  exitedWaited : ∀ s, c.childState = .Exited s → ∃ t, c.waited t = true

/-- Initial configuration in which every thread is about to call `wait`. -/
def WInit {n : Nat} (c : Config n) : Prop :=
  Init c ∧ ∀ t, c.threads t = .wLock

/-- Reachable from an all-`wait` initial configuration. -/
def WReachable {n : Nat} (c : Config n) : Prop :=
  ∃ c0, WInit c0 ∧ Reach c0 c

/-! Concrete executions used below: one thread running `wait` to
completion (`w1`), one thread running `try_wait` after the child exits
(`t1`), one thread running `kill` up to the signal (`k1`), a `try_wait`
followed by a `kill` on two threads (`k2`), two `wait` threads where the
first waiter fails and the second retries successfully (`e2`), and a
single blocked waiter (`w8`). -/

def w1c0 : Config 1 :=
  { childState := .NotWaiting, stateLockHolder := none, childLockHolder := none,
    os := .running, threads := fun _ => .wLock, reapCount := 0,
    waited := fun _ => false, errs := 0 }

def w1c1 : Config 1 :=
  { w1c0 with stateLockHolder := some 0,
              threads := Function.update w1c0.threads 0 .wCheck }

def w1c2 : Config 1 :=
  { w1c1 with childState := .Waiting, stateLockHolder := none,
              threads := Function.update w1c1.threads 0 .wSys,
              waited := Function.update w1c1.waited 0 true }

def w1c3 : Config 1 := { w1c2 with os := .exited 0 }

def w1c4 : Config 1 :=
  { w1c3 with threads := Function.update w1c3.threads 0 (.wRelock (.ok ())) }

def w1c5 : Config 1 :=
  { w1c4 with stateLockHolder := some 0,
              threads := Function.update w1c4.threads 0 (.wReap (.ok ())) }

def w1c6 : Config 1 :=
  { w1c5 with childState := .Exited 0, os := .reaped 0,
              reapCount := w1c5.reapCount + 1, stateLockHolder := none,
              threads := Function.update w1c5.threads 0 (.done (.wRet (.ok 0))) }

def t1c0 : Config 1 :=
  { childState := .NotWaiting, stateLockHolder := none, childLockHolder := none,
    os := .running, threads := fun _ => .tLock, reapCount := 0,
    waited := fun _ => false, errs := 0 }

def t1c1 : Config 1 := { t1c0 with os := .exited 5 }

def t1c2 : Config 1 :=
  { t1c1 with stateLockHolder := some 0,
              threads := Function.update t1c1.threads 0 .tCheck }

def t1c3 : Config 1 :=
  { t1c2 with threads := Function.update t1c2.threads 0 .tPoll }

def t1c4 : Config 1 :=
  { t1c3 with childState := .Exited 5, os := .reaped 5,
              reapCount := t1c3.reapCount + 1, stateLockHolder := none,
              threads := Function.update t1c3.threads 0 (.done (.tRet (.ok (some 5)))) }

def k1c0 : Config 1 :=
  { childState := .NotWaiting, stateLockHolder := none, childLockHolder := none,
    os := .running, threads := fun _ => .kLock, reapCount := 0,
    waited := fun _ => false, errs := 0 }

def k1c1 : Config 1 :=
  { k1c0 with stateLockHolder := some 0,
              threads := Function.update k1c0.threads 0 .kCheck }

def k1c2 : Config 1 :=
  { k1c1 with threads := Function.update k1c1.threads 0 .kAcqChild }

def k1c3 : Config 1 :=
  { k1c2 with childLockHolder := some 0,
              threads := Function.update k1c2.threads 0 .kSignal }

def k2c0 : Config 2 :=
  { childState := .NotWaiting, stateLockHolder := none, childLockHolder := none,
    os := .running, threads := fun t => if t = 0 then .tLock else .kLock,
    reapCount := 0, waited := fun _ => false, errs := 0 }

def k2c1 : Config 2 := { k2c0 with os := .exited 7 }

def k2c2 : Config 2 :=
  { k2c1 with stateLockHolder := some 0,
              threads := Function.update k2c1.threads 0 .tCheck }

def k2c3 : Config 2 :=
  { k2c2 with threads := Function.update k2c2.threads 0 .tPoll }

def k2c4 : Config 2 :=
  { k2c3 with childState := .Exited 7, os := .reaped 7,
              reapCount := k2c3.reapCount + 1, stateLockHolder := none,
              threads := Function.update k2c3.threads 0 (.done (.tRet (.ok (some 7)))) }

def k2c5 : Config 2 :=
  { k2c4 with stateLockHolder := some 1,
              threads := Function.update k2c4.threads 1 .kCheck }

def k2c6 : Config 2 :=
  { k2c5 with stateLockHolder := none,
              threads := Function.update k2c5.threads 1 (.done (.kRet (.ok ()))) }

def e2c0 : Config 2 :=
  { childState := .NotWaiting, stateLockHolder := none, childLockHolder := none,
    os := .running, threads := fun _ => .wLock, reapCount := 0,
    waited := fun _ => false, errs := 0 }

def e2c1 : Config 2 :=
  { e2c0 with stateLockHolder := some 0,
              threads := Function.update e2c0.threads 0 .wCheck }

def e2c2 : Config 2 :=
  { e2c1 with childState := .Waiting, stateLockHolder := none,
              threads := Function.update e2c1.threads 0 .wSys,
              waited := Function.update e2c1.waited 0 true }

def e2c3 : Config 2 :=
  { e2c2 with stateLockHolder := some 1,
              threads := Function.update e2c2.threads 1 .wCheck }

def e2c4 : Config 2 :=
  { e2c3 with stateLockHolder := none,
              threads := Function.update e2c3.threads 1 .wBlocked }

def e2c5 : Config 2 :=
  { e2c4 with threads := Function.update e2c4.threads 0 (.wRelock (.error (.os 5))),
              errs := e2c4.errs + 1 }

def e2c6 : Config 2 :=
  { e2c5 with stateLockHolder := some 0,
              threads := Function.update e2c5.threads 0 (.wReap (.error (.os 5))) }

def e2c7 : Config 2 :=
  { e2c6 with childState := .NotWaiting, stateLockHolder := none,
              threads := Function.update e2c6.threads 0 (.done (.wRet (.error (.os 5)))) }

def e2c8 : Config 2 :=
  { e2c7 with threads := Function.update e2c7.threads 1 .wWake }

def e2c9 : Config 2 :=
  { e2c8 with stateLockHolder := some 1,
              threads := Function.update e2c8.threads 1 .wCheck }

def e2c10 : Config 2 :=
  { e2c9 with childState := .Waiting, stateLockHolder := none,
              threads := Function.update e2c9.threads 1 .wSys,
              waited := Function.update e2c9.waited 1 true }

def e2c11 : Config 2 := { e2c10 with os := .exited 7 }

def e2c12 : Config 2 :=
  { e2c11 with threads := Function.update e2c11.threads 1 (.wRelock (.ok ())) }

def e2c13 : Config 2 :=
  { e2c12 with stateLockHolder := some 1,
               threads := Function.update e2c12.threads 1 (.wReap (.ok ())) }

def e2c14 : Config 2 :=
  { e2c13 with childState := .Exited 7, os := .reaped 7,
               reapCount := e2c13.reapCount + 1, stateLockHolder := none,
               threads := Function.update e2c13.threads 1 (.done (.wRet (.ok 7))) }

def w8 : Config 1 :=
  { childState := .Waiting, stateLockHolder := none, childLockHolder := none,
    os := .running, threads := fun _ => .wBlocked, reapCount := 0,
    waited := fun _ => false, errs := 0 }

theorem upd_at {n : Nat} {α : Type} (f : Fin n → α) (t : Fin n) (v : α) :
    Function.update f t v t = v := Function.update_same t v f

theorem upd_ne {n : Nat} {α : Type} (f : Fin n → α) {u t : Fin n} (v : α) (h : u ≠ t) :
    Function.update f t v u = f u := Function.update_noteq h v f

theorem init_inv {n : Nat} {c : Config n} (h : Init c) : Inv c := by
  obtain ⟨h1, h2, h3, h4, h5, h6, h7, h8⟩ := h
  constructor
  case lockState =>
    intro t
    rcases h5 t with he | he | he <;> rw [he, h2] <;> simp [holdsState]
  case lockChild =>
    intro t
    rcases h5 t with he | he | he <;> rw [he, h3] <;> simp
  case secWaiting =>
    intro t ht
    rcases h5 t with he | he | he <;> rw [he] at ht <;> exact absurd ht (by decide)
  case secUnique =>
    intro t u ht hu
    rcases h5 t with he | he | he <;> rw [he] at ht <;> exact absurd ht (by decide)
  case waitingSec =>
    intro hw
    rw [h1] at hw
    exact absurd hw (by decide)
  case osReaped =>
    intro s
    rw [h4, h1]
    constructor <;> intro hh <;> exact absurd hh (by simp)
  case reapOnce => rw [h6, h4]
  case tPollNW =>
    intro t ht
    rcases h5 t with he | he | he <;> rw [he] at ht <;> exact ThreadProg.noConfusion ht
  case relockNR =>
    intro t ht
    rcases h5 t with he | he | he <;> rw [he] at ht <;>
      rcases ht with ht | ht <;> exact ThreadProg.noConfusion ht
  case doneOkExited =>
    intro t s ht
    rcases h5 t with he | he | he <;> rw [he] at ht <;> exact ThreadProg.noConfusion ht
  case secWaited =>
    intro t ht
    rcases h5 t with he | he | he <;> rw [he] at ht <;> exact absurd ht (by decide)
  case waitedUnique =>
    intro _ t u ht _
    rw [h7 t] at ht
    exact absurd ht (by simp)
  case waitedNW =>
    intro _ _ t
    exact h7 t
  case noWErr =>
    intro _ t e
    rcases h5 t with he | he | he <;> rw [he] <;>
      exact ⟨ThreadProg.noConfusion, ThreadProg.noConfusion, ThreadProg.noConfusion⟩

theorem lockState_acquire {n : Nat} {c : Config n} {t : Fin n} {newPc : ThreadProg}
    (lockState : ∀ u, holdsState (c.threads u) = true ↔ c.stateLockHolder = some u)
    (hfree : c.stateLockHolder = none)
    (hnew : holdsState newPc = true) :
    ∀ u, holdsState (Function.update c.threads t newPc u) = true ↔ some t = some u := by
  intro u
  rcases eq_or_ne u t with rfl | hu
  · rw [upd_at, hnew]; simp
  · rw [upd_ne _ _ hu]
    constructor
    · intro h
      have h2 := (lockState u).mp h
      rw [hfree] at h2
      exact Option.noConfusion h2
    · intro h
      injection h with h
      exact absurd h.symm hu

theorem lockState_release {n : Nat} {c : Config n} {t : Fin n} {newPc : ThreadProg}
    (lockState : ∀ u, holdsState (c.threads u) = true ↔ c.stateLockHolder = some u)
    (hold : c.stateLockHolder = some t)
    (hnew : holdsState newPc = false) :
    ∀ u, holdsState (Function.update c.threads t newPc u) = true ↔ none = some u := by
  intro u
  rcases eq_or_ne u t with rfl | hu
  · rw [upd_at, hnew]
    constructor
    · intro h; exact Bool.noConfusion h
    · intro h; exact Option.noConfusion h
  · rw [upd_ne _ _ hu]
    constructor
    · intro h
      have h2 := (lockState u).mp h
      rw [hold] at h2
      injection h2 with h2
      exact absurd h2.symm hu
    · intro h; exact Option.noConfusion h

theorem lockState_keep {n : Nat} {c : Config n} {t : Fin n} {newPc : ThreadProg}
    (lockState : ∀ u, holdsState (c.threads u) = true ↔ c.stateLockHolder = some u)
    (hold : c.stateLockHolder = some t)
    (hnew : holdsState newPc = true) :
    ∀ u, holdsState (Function.update c.threads t newPc u) = true ↔
      c.stateLockHolder = some u := by
  intro u
  rcases eq_or_ne u t with rfl | hu
  · rw [upd_at, hnew, hold]; simp
  · rw [upd_ne _ _ hu]; exact lockState u

theorem lockState_neutral {n : Nat} {c : Config n} {t : Fin n} {newPc oldPc : ThreadProg}
    (lockState : ∀ u, holdsState (c.threads u) = true ↔ c.stateLockHolder = some u)
    (hpc : c.threads t = oldPc)
    (holdOld : holdsState oldPc = false) (hnew : holdsState newPc = false) :
    ∀ u, holdsState (Function.update c.threads t newPc u) = true ↔
      c.stateLockHolder = some u := by
  intro u
  rcases eq_or_ne u t with rfl | hu
  · rw [upd_at, hnew]
    constructor
    · intro h; exact Bool.noConfusion h
    · intro h
      have h2 := (lockState u).mpr h
      rw [hpc, holdOld] at h2
      exact Bool.noConfusion h2
  · rw [upd_ne _ _ hu]; exact lockState u

theorem lockChild_unchanged {n : Nat} {c : Config n} {t : Fin n} {newPc oldPc : ThreadProg}
    (lockChild : ∀ u, c.threads u = .kSignal ↔ c.childLockHolder = some u)
    (hpc : c.threads t = oldPc)
    (holdOld : oldPc ≠ .kSignal) (hnew : newPc ≠ .kSignal) :
    ∀ u, Function.update c.threads t newPc u = .kSignal ↔ c.childLockHolder = some u := by
  intro u
  rcases eq_or_ne u t with rfl | hu
  · rw [upd_at]
    constructor
    · intro h; exact absurd h hnew
    · intro h
      have h2 := (lockChild u).mpr h
      rw [hpc] at h2
      exact absurd h2 holdOld
  · rw [upd_ne _ _ hu]; exact lockChild u

theorem secWaiting_update {n : Nat} {f : Fin n → ThreadProg} {t : Fin n} {newPc : ThreadProg}
    {Q : Prop} (hpre : ∀ u, inSection (f u) = true → Q)
    (hnew : inSection newPc = true → Q) :
    ∀ u, inSection (Function.update f t newPc u) = true → Q := by
  intro u hP
  rcases eq_or_ne u t with rfl | hu
  · rw [upd_at] at hP; exact hnew hP
  · rw [upd_ne _ _ hu] at hP; exact hpre u hP

theorem tPollNW_update {n : Nat} {f : Fin n → ThreadProg} {t : Fin n} {newPc : ThreadProg}
    {Q : Prop} (hpre : ∀ u, f u = .tPoll → Q) (hnew : newPc = .tPoll → Q) :
    ∀ u, Function.update f t newPc u = .tPoll → Q := by
  intro u hP
  rcases eq_or_ne u t with rfl | hu
  · rw [upd_at] at hP; exact hnew hP
  · rw [upd_ne _ _ hu] at hP; exact hpre u hP

theorem relockNR_update {n : Nat} {f : Fin n → ThreadProg} {t : Fin n} {newPc : ThreadProg}
    {Q : Prop}
    (hpre : ∀ u, (f u = .wRelock (.ok ()) ∨ f u = .wReap (.ok ())) → Q)
    (hnew : (newPc = .wRelock (.ok ()) ∨ newPc = .wReap (.ok ())) → Q) :
    ∀ u, (Function.update f t newPc u = .wRelock (.ok ()) ∨
      Function.update f t newPc u = .wReap (.ok ())) → Q := by
  intro u hP
  rcases eq_or_ne u t with rfl | hu
  · rw [upd_at] at hP; exact hnew hP
  · rw [upd_ne _ _ hu] at hP; exact hpre u hP

theorem doneOk_update {n : Nat} {f : Fin n → ThreadProg} {t : Fin n} {newPc : ThreadProg}
    {Q : ExitStatus → Prop}
    (hpre : ∀ u s, f u = .done (.wRet (.ok s)) → Q s)
    (hnew : ∀ s, newPc = .done (.wRet (.ok s)) → Q s) :
    ∀ u s, Function.update f t newPc u = .done (.wRet (.ok s)) → Q s := by
  intro u s hP
  rcases eq_or_ne u t with rfl | hu
  · rw [upd_at] at hP; exact hnew s hP
  · rw [upd_ne _ _ hu] at hP; exact hpre u s hP

theorem secWaited_update {n : Nat} {f : Fin n → ThreadProg} {t : Fin n} {newPc : ThreadProg}
    {w : Fin n → Bool}
    (hpre : ∀ u, inSection (f u) = true → w u = true)
    (hnew : inSection newPc = true → w t = true) :
    ∀ u, inSection (Function.update f t newPc u) = true → w u = true := by
  intro u hP
  rcases eq_or_ne u t with rfl | hu
  · rw [upd_at] at hP; exact hnew hP
  · rw [upd_ne _ _ hu] at hP; exact hpre u hP

theorem secUnique_update {n : Nat} {f : Fin n → ThreadProg} {t : Fin n} {newPc : ThreadProg}
    (hpre : ∀ u v, inSection (f u) = true → inSection (f v) = true → u = v)
    (hnew : inSection newPc = true → ∀ v, v ≠ t → inSection (f v) = true → False) :
    ∀ u v, inSection (Function.update f t newPc u) = true →
      inSection (Function.update f t newPc v) = true → u = v := by
  intro u v hu' hv'
  rcases eq_or_ne u t with rfl | hu
  · rcases eq_or_ne v u with rfl | hv
    · rfl
    · rw [upd_at] at hu'
      rw [upd_ne _ _ hv] at hv'
      exact ((hnew hu' v hv hv').elim)
  · rcases eq_or_ne v t with rfl | hv
    · rw [upd_at] at hv'
      rw [upd_ne _ _ hu] at hu'
      exact ((hnew hv' u hu hu').elim)
    · rw [upd_ne _ _ hu] at hu'
      rw [upd_ne _ _ hv] at hv'
      exact hpre u v hu' hv'

theorem waitingSec_update {n : Nat} {f : Fin n → ThreadProg} {t : Fin n} {newPc : ThreadProg}
    (hpre : ∃ u, inSection (f u) = true)
    (hkeep : inSection (f t) = true → inSection newPc = true) :
    ∃ u, inSection (Function.update f t newPc u) = true := by
  obtain ⟨u, hu'⟩ := hpre
  rcases eq_or_ne u t with rfl | hu
  · exact ⟨u, by rw [upd_at]; exact hkeep hu'⟩
  · exact ⟨u, by rw [upd_ne _ _ hu]; exact hu'⟩

theorem noWErr_update {n : Nat} {f : Fin n → ThreadProg} {t : Fin n} {newPc : ThreadProg}
    (hpre : ∀ u e, f u ≠ .wRelock (.error e) ∧ f u ≠ .wReap (.error e) ∧
      f u ≠ .done (.wRet (.error e)))
    (hnew : ∀ e, newPc ≠ .wRelock (.error e) ∧ newPc ≠ .wReap (.error e) ∧
      newPc ≠ .done (.wRet (.error e))) :
    ∀ u e, Function.update f t newPc u ≠ .wRelock (.error e) ∧
      Function.update f t newPc u ≠ .wReap (.error e) ∧
      Function.update f t newPc u ≠ .done (.wRet (.error e)) := by
  intro u e
  rcases eq_or_ne u t with rfl | hu
  · rw [upd_at]; exact hnew e
  · rw [upd_ne _ _ hu]; exact hpre u e

/-- The protocol invariant is preserved by every step. -/
theorem inv_step {n : Nat} {l : Label n} {c c2 : Config n}
    (hinv : Inv c) (hs : Step l c c2) : Inv c2 := by
  obtain ⟨lockState, lockChild, secWaiting, secUnique, waitingSec, osReaped,
    reapOnce, tPollNW, relockNR, doneOkExited, secWaited, waitedUnique,
    waitedNW, noWErr⟩ := hinv
  cases hs with
  | wLockAcq _ t hpc hfree =>
    constructor <;> (try dsimp only)
    case lockState => exact lockState_acquire lockState hfree rfl
    case lockChild =>
      exact lockChild_unchanged lockChild hpc (fun h => ThreadProg.noConfusion h)
        (fun h => ThreadProg.noConfusion h)
    case secWaiting => exact secWaiting_update secWaiting (fun h => Bool.noConfusion h)
    case secUnique => exact secUnique_update secUnique (fun h => Bool.noConfusion h)
    case waitingSec =>
      intro hw
      exact waitingSec_update (waitingSec hw)
        (fun h => by rw [hpc] at h; exact Bool.noConfusion h)
    case osReaped => exact osReaped
    case reapOnce => exact reapOnce
    case tPollNW => exact tPollNW_update tPollNW (fun h => ThreadProg.noConfusion h)
    case relockNR =>
      exact relockNR_update relockNR
        (fun h => h.elim (fun h2 => ThreadProg.noConfusion h2)
          (fun h2 => ThreadProg.noConfusion h2))
    case doneOkExited => exact doneOk_update doneOkExited (fun s h => ThreadProg.noConfusion h)
    case secWaited => exact secWaited_update secWaited (fun h => Bool.noConfusion h)
    case waitedUnique => exact waitedUnique
    case waitedNW => exact waitedNW
    case noWErr =>
      intro h
      exact noWErr_update (noWErr h) (fun e => by refine ⟨?_, ?_, ?_⟩ <;> simp)
  | wCheckNotWaiting _ t hpc hold hst =>
    constructor <;> (try dsimp only)
    case lockState => exact lockState_release lockState hold rfl
    case lockChild =>
      exact lockChild_unchanged lockChild hpc (fun h => ThreadProg.noConfusion h)
        (fun h => ThreadProg.noConfusion h)
    case secWaiting => intro u _; rfl
    case secUnique =>
      refine secUnique_update secUnique ?_
      intro _ v _ hvsec
      have h2 := secWaiting v hvsec
      rw [hst] at h2
      exact ChildState.noConfusion h2
    case waitingSec =>
      intro _
      exact ⟨t, by rw [upd_at]; rfl⟩
    case osReaped =>
      intro s
      constructor
      · intro h
        have h2 := (osReaped s).mp h
        rw [hst] at h2
        exact ChildState.noConfusion h2
      · intro h
        exact ChildState.noConfusion h
    case reapOnce => exact reapOnce
    case tPollNW =>
      intro u hu2
      rcases eq_or_ne u t with rfl | hu
      · rw [upd_at] at hu2
        exact ThreadProg.noConfusion hu2
      · rw [upd_ne _ _ hu] at hu2
        have h2 := (lockState u).mp (by rw [hu2]; rfl)
        rw [hold] at h2
        injection h2 with h2
        exact absurd h2.symm hu
    case relockNR =>
      exact relockNR_update relockNR
        (fun h => h.elim (fun h2 => ThreadProg.noConfusion h2)
          (fun h2 => ThreadProg.noConfusion h2))
    case doneOkExited =>
      refine doneOk_update ?_ ?_
      · intro u s hu2
        have h2 := doneOkExited u s hu2
        rw [hst] at h2
        exact ChildState.noConfusion h2
      · intro s h2
        exact ThreadProg.noConfusion h2
    case secWaited =>
      intro u hu2
      rcases eq_or_ne u t with rfl | hu
      · rw [upd_at]
      · rw [upd_ne _ _ hu]
        rw [upd_ne _ _ hu] at hu2
        exact secWaited u hu2
    case waitedUnique =>
      intro h u v hu2 hv2
      have hall := waitedNW h hst
      rcases eq_or_ne u t with rfl | hu
      · rcases eq_or_ne v u with rfl | hv
        · rfl
        · rw [upd_ne _ _ hv, hall v] at hv2
          exact Bool.noConfusion hv2
      · rw [upd_ne _ _ hu, hall u] at hu2
        exact Bool.noConfusion hu2
    case waitedNW =>
      intro _ h2
      exact ChildState.noConfusion h2
    case noWErr =>
      intro h
      exact noWErr_update (noWErr h) (fun e => by refine ⟨?_, ?_, ?_⟩ <;> simp)
  | wCheckWaiting _ t hpc hold hst =>
    constructor <;> (try dsimp only)
    case lockState => exact lockState_release lockState hold rfl
    case lockChild =>
      exact lockChild_unchanged lockChild hpc (fun h => ThreadProg.noConfusion h)
        (fun h => ThreadProg.noConfusion h)
    case secWaiting => exact secWaiting_update secWaiting (fun h => Bool.noConfusion h)
    case secUnique => exact secUnique_update secUnique (fun h => Bool.noConfusion h)
    case waitingSec =>
      intro hw
      exact waitingSec_update (waitingSec hw)
        (fun h => by rw [hpc] at h; exact Bool.noConfusion h)
    case osReaped => exact osReaped
    case reapOnce => exact reapOnce
    case tPollNW => exact tPollNW_update tPollNW (fun h => ThreadProg.noConfusion h)
    case relockNR =>
      exact relockNR_update relockNR
        (fun h => h.elim (fun h2 => ThreadProg.noConfusion h2)
          (fun h2 => ThreadProg.noConfusion h2))
    case doneOkExited => exact doneOk_update doneOkExited (fun s h => ThreadProg.noConfusion h)
    case secWaited => exact secWaited_update secWaited (fun h => Bool.noConfusion h)
    case waitedUnique => exact waitedUnique
    case waitedNW => exact waitedNW
    case noWErr =>
      intro h
      exact noWErr_update (noWErr h) (fun e => by refine ⟨?_, ?_, ?_⟩ <;> simp)
  | wCheckExited _ t s hpc hold hst =>
    constructor <;> (try dsimp only)
    case lockState => exact lockState_release lockState hold rfl
    case lockChild =>
      exact lockChild_unchanged lockChild hpc (fun h => ThreadProg.noConfusion h)
        (fun h => ThreadProg.noConfusion h)
    case secWaiting => exact secWaiting_update secWaiting (fun h => Bool.noConfusion h)
    case secUnique => exact secUnique_update secUnique (fun h => Bool.noConfusion h)
    case waitingSec =>
      intro hw
      exact waitingSec_update (waitingSec hw)
        (fun h => by rw [hpc] at h; exact Bool.noConfusion h)
    case osReaped => exact osReaped
    case reapOnce => exact reapOnce
    case tPollNW => exact tPollNW_update tPollNW (fun h => ThreadProg.noConfusion h)
    case relockNR =>
      exact relockNR_update relockNR
        (fun h => h.elim (fun h2 => ThreadProg.noConfusion h2)
          (fun h2 => ThreadProg.noConfusion h2))
    case doneOkExited =>
      refine doneOk_update doneOkExited ?_
      intro s2 h2
      simp at h2
      rw [← h2]
      exact hst
    case secWaited => exact secWaited_update secWaited (fun h => Bool.noConfusion h)
    case waitedUnique => exact waitedUnique
    case waitedNW => exact waitedNW
    case noWErr =>
      intro h
      exact noWErr_update (noWErr h) (fun e => by refine ⟨?_, ?_, ?_⟩ <;> simp)
  | wWakeup _ t hpc =>
    constructor <;> (try dsimp only)
    case lockState => exact lockState_neutral lockState hpc rfl rfl
    case lockChild =>
      exact lockChild_unchanged lockChild hpc (fun h => ThreadProg.noConfusion h)
        (fun h => ThreadProg.noConfusion h)
    case secWaiting => exact secWaiting_update secWaiting (fun h => Bool.noConfusion h)
    case secUnique => exact secUnique_update secUnique (fun h => Bool.noConfusion h)
    case waitingSec =>
      intro hw
      exact waitingSec_update (waitingSec hw)
        (fun h => by rw [hpc] at h; exact Bool.noConfusion h)
    case osReaped => exact osReaped
    case reapOnce => exact reapOnce
    case tPollNW => exact tPollNW_update tPollNW (fun h => ThreadProg.noConfusion h)
    case relockNR =>
      exact relockNR_update relockNR
        (fun h => h.elim (fun h2 => ThreadProg.noConfusion h2)
          (fun h2 => ThreadProg.noConfusion h2))
    case doneOkExited => exact doneOk_update doneOkExited (fun s h => ThreadProg.noConfusion h)
    case secWaited => exact secWaited_update secWaited (fun h => Bool.noConfusion h)
    case waitedUnique => exact waitedUnique
    case waitedNW => exact waitedNW
    case noWErr =>
      intro h
      exact noWErr_update (noWErr h) (fun e => by refine ⟨?_, ?_, ?_⟩ <;> simp)
  | wWakeAcq _ t hpc hfree =>
    constructor <;> (try dsimp only)
    case lockState => exact lockState_acquire lockState hfree rfl
    case lockChild =>
      exact lockChild_unchanged lockChild hpc (fun h => ThreadProg.noConfusion h)
        (fun h => ThreadProg.noConfusion h)
    case secWaiting => exact secWaiting_update secWaiting (fun h => Bool.noConfusion h)
    case secUnique => exact secUnique_update secUnique (fun h => Bool.noConfusion h)
    case waitingSec =>
      intro hw
      exact waitingSec_update (waitingSec hw)
        (fun h => by rw [hpc] at h; exact Bool.noConfusion h)
    case osReaped => exact osReaped
    case reapOnce => exact reapOnce
    case tPollNW => exact tPollNW_update tPollNW (fun h => ThreadProg.noConfusion h)
    case relockNR =>
      exact relockNR_update relockNR
        (fun h => h.elim (fun h2 => ThreadProg.noConfusion h2)
          (fun h2 => ThreadProg.noConfusion h2))
    case doneOkExited => exact doneOk_update doneOkExited (fun s h => ThreadProg.noConfusion h)
    case secWaited => exact secWaited_update secWaited (fun h => Bool.noConfusion h)
    case waitedUnique => exact waitedUnique
    case waitedNW => exact waitedNW
    case noWErr =>
      intro h
      exact noWErr_update (noWErr h) (fun e => by refine ⟨?_, ?_, ?_⟩ <;> simp)
  | wSysOk _ t hpc hos =>
    constructor <;> (try dsimp only)
    case lockState => exact lockState_neutral lockState hpc rfl rfl
    case lockChild =>
      exact lockChild_unchanged lockChild hpc (fun h => ThreadProg.noConfusion h)
        (fun h => ThreadProg.noConfusion h)
    case secWaiting =>
      exact secWaiting_update secWaiting (fun _ => secWaiting t (by rw [hpc]; rfl))
    case secUnique =>
      exact secUnique_update secUnique
        (fun _ v hv hvsec => hv (secUnique v t hvsec (by rw [hpc]; rfl)))
    case waitingSec =>
      intro hw
      exact waitingSec_update (waitingSec hw) (fun _ => rfl)
    case osReaped => exact osReaped
    case reapOnce => exact reapOnce
    case tPollNW => exact tPollNW_update tPollNW (fun h => ThreadProg.noConfusion h)
    case relockNR => exact relockNR_update relockNR (fun _ => hos)
    case doneOkExited => exact doneOk_update doneOkExited (fun s h => ThreadProg.noConfusion h)
    case secWaited =>
      exact secWaited_update secWaited (fun _ => secWaited t (by rw [hpc]; rfl))
    case waitedUnique => exact waitedUnique
    case waitedNW => exact waitedNW
    case noWErr =>
      intro h
      exact noWErr_update (noWErr h) (fun e => by refine ⟨?_, ?_, ?_⟩ <;> simp)
  | wSysErr _ t e hpc =>
    constructor <;> (try dsimp only)
    case lockState => exact lockState_neutral lockState hpc rfl rfl
    case lockChild =>
      exact lockChild_unchanged lockChild hpc (fun h => ThreadProg.noConfusion h)
        (fun h => ThreadProg.noConfusion h)
    case secWaiting =>
      exact secWaiting_update secWaiting (fun _ => secWaiting t (by rw [hpc]; rfl))
    case secUnique =>
      exact secUnique_update secUnique
        (fun _ v hv hvsec => hv (secUnique v t hvsec (by rw [hpc]; rfl)))
    case waitingSec =>
      intro hw
      exact waitingSec_update (waitingSec hw) (fun _ => rfl)
    case osReaped => exact osReaped
    case reapOnce => exact reapOnce
    case tPollNW => exact tPollNW_update tPollNW (fun h => ThreadProg.noConfusion h)
    case relockNR =>
      refine relockNR_update relockNR ?_
      intro h
      rcases h with h | h <;> simp at h
    case doneOkExited => exact doneOk_update doneOkExited (fun s h => ThreadProg.noConfusion h)
    case secWaited =>
      exact secWaited_update secWaited (fun _ => secWaited t (by rw [hpc]; rfl))
    case waitedUnique => intro h; exact absurd h (Nat.succ_ne_zero _)
    case waitedNW => intro h; exact absurd h (Nat.succ_ne_zero _)
    case noWErr => intro h; exact absurd h (Nat.succ_ne_zero _)
  | wRelockAcq _ t nr hpc hfree =>
    constructor <;> (try dsimp only)
    case lockState => exact lockState_acquire lockState hfree rfl
    case lockChild =>
      exact lockChild_unchanged lockChild hpc (fun h => ThreadProg.noConfusion h)
        (fun h => ThreadProg.noConfusion h)
    case secWaiting =>
      exact secWaiting_update secWaiting (fun _ => secWaiting t (by rw [hpc]; rfl))
    case secUnique =>
      exact secUnique_update secUnique
        (fun _ v hv hvsec => hv (secUnique v t hvsec (by rw [hpc]; rfl)))
    case waitingSec =>
      intro hw
      exact waitingSec_update (waitingSec hw) (fun _ => rfl)
    case osReaped => exact osReaped
    case reapOnce => exact reapOnce
    case tPollNW => exact tPollNW_update tPollNW (fun h => ThreadProg.noConfusion h)
    case relockNR =>
      refine relockNR_update relockNR ?_
      intro h
      rcases h with h | h
      · exact ThreadProg.noConfusion h
      · injection h with h2
        exact relockNR t (Or.inl (by rw [hpc, h2]))
    case doneOkExited => exact doneOk_update doneOkExited (fun s h => ThreadProg.noConfusion h)
    case secWaited =>
      exact secWaited_update secWaited (fun _ => secWaited t (by rw [hpc]; rfl))
    case waitedUnique => exact waitedUnique
    case waitedNW => exact waitedNW
    case noWErr =>
      intro h
      intro u e
      rcases eq_or_ne u t with rfl | hu
      · rw [upd_at]
        refine ⟨by simp, ?_, by simp⟩
        intro h2
        injection h2 with h3
        exact (noWErr h u e).1 (by rw [hpc, h3])
      · rw [upd_ne _ _ hu]
        exact noWErr h u e
  | wReapNoreapErr _ t e hpc hold =>
    constructor <;> (try dsimp only)
    case lockState => exact lockState_release lockState hold rfl
    case lockChild =>
      exact lockChild_unchanged lockChild hpc (fun h => ThreadProg.noConfusion h)
        (fun h => ThreadProg.noConfusion h)
    case secWaiting =>
      intro u hu2
      rcases eq_or_ne u t with rfl | hu
      · rw [upd_at] at hu2
        exact Bool.noConfusion hu2
      · rw [upd_ne _ _ hu] at hu2
        exact absurd (secUnique u t hu2 (by rw [hpc]; rfl)) hu
    case secUnique => exact secUnique_update secUnique (fun h => Bool.noConfusion h)
    case waitingSec => intro hw; exact ChildState.noConfusion hw
    case osReaped =>
      intro s
      constructor
      · intro h
        have h2 := (osReaped s).mp h
        have h3 := secWaiting t (by rw [hpc]; rfl)
        rw [h3] at h2
        exact ChildState.noConfusion h2
      · intro h
        exact ChildState.noConfusion h
    case reapOnce => exact reapOnce
    case tPollNW => intro u _; rfl
    case relockNR =>
      exact relockNR_update relockNR
        (fun h => h.elim (fun h2 => ThreadProg.noConfusion h2)
          (fun h2 => ThreadProg.noConfusion h2))
    case doneOkExited =>
      refine doneOk_update ?_ ?_
      · intro u s hu2
        have h2 := doneOkExited u s hu2
        have h3 := secWaiting t (by rw [hpc]; rfl)
        rw [h3] at h2
        exact ChildState.noConfusion h2
      · intro s h2
        simp at h2
    case secWaited => exact secWaited_update secWaited (fun h => Bool.noConfusion h)
    case waitedUnique => intro h; exact absurd hpc ((noWErr h t e).2.1)
    case waitedNW => intro h; exact absurd hpc ((noWErr h t e).2.1)
    case noWErr => intro h; exact absurd hpc ((noWErr h t e).2.1)
  | wReapOk _ t s hpc hold hos =>
    constructor <;> (try dsimp only)
    case lockState => exact lockState_release lockState hold rfl
    case lockChild =>
      exact lockChild_unchanged lockChild hpc (fun h => ThreadProg.noConfusion h)
        (fun h => ThreadProg.noConfusion h)
    case secWaiting =>
      intro u hu2
      rcases eq_or_ne u t with rfl | hu
      · rw [upd_at] at hu2
        exact Bool.noConfusion hu2
      · rw [upd_ne _ _ hu] at hu2
        exact absurd (secUnique u t hu2 (by rw [hpc]; rfl)) hu
    case secUnique => exact secUnique_update secUnique (fun h => Bool.noConfusion h)
    case waitingSec => intro hw; exact ChildState.noConfusion hw
    case osReaped =>
      intro s2
      constructor
      · intro h
        injection h with h2
        rw [h2]
      · intro h
        injection h with h2
        rw [h2]
    case reapOnce =>
      have h0 : c.reapCount = 0 := by rw [reapOnce, hos]
      rw [h0]
    case tPollNW =>
      intro u hu2
      rcases eq_or_ne u t with rfl | hu
      · rw [upd_at] at hu2
        exact ThreadProg.noConfusion hu2
      · rw [upd_ne _ _ hu] at hu2
        have h2 := (lockState u).mp (by rw [hu2]; rfl)
        rw [hold] at h2
        injection h2 with h2
        exact absurd h2.symm hu
    case relockNR => intro u _ h2; exact OsProc.noConfusion h2
    case doneOkExited =>
      refine doneOk_update ?_ ?_
      · intro u s2 hu2
        have h2 := doneOkExited u s2 hu2
        have h3 := secWaiting t (by rw [hpc]; rfl)
        rw [h3] at h2
        exact ChildState.noConfusion h2
      · intro s2 h2
        simp at h2
        rw [h2]
    case secWaited => exact secWaited_update secWaited (fun h => Bool.noConfusion h)
    case waitedUnique => exact waitedUnique
    case waitedNW => intro _ h2; exact ChildState.noConfusion h2
    case noWErr =>
      intro h
      exact noWErr_update (noWErr h) (fun e => by refine ⟨?_, ?_, ?_⟩ <;> simp)
  | wReapStillRunning _ t hpc hold hos =>
    exact absurd hos (relockNR t (Or.inr hpc))
  | wReapAlreadyReaped _ t s hpc hold hos =>
    have h2 := (osReaped s).mp hos
    have h3 := secWaiting t (by rw [hpc]; rfl)
    rw [h3] at h2
    exact ChildState.noConfusion h2
  | wReapInjErr _ t e hpc hold =>
    constructor <;> (try dsimp only)
    case lockState => exact lockState_release lockState hold rfl
    case lockChild =>
      exact lockChild_unchanged lockChild hpc (fun h => ThreadProg.noConfusion h)
        (fun h => ThreadProg.noConfusion h)
    case secWaiting =>
      intro u hu2
      rcases eq_or_ne u t with rfl | hu
      · rw [upd_at] at hu2
        exact Bool.noConfusion hu2
      · rw [upd_ne _ _ hu] at hu2
        exact absurd (secUnique u t hu2 (by rw [hpc]; rfl)) hu
    case secUnique => exact secUnique_update secUnique (fun h => Bool.noConfusion h)
    case waitingSec => intro hw; exact ChildState.noConfusion hw
    case osReaped =>
      intro s
      constructor
      · intro h
        have h2 := (osReaped s).mp h
        have h3 := secWaiting t (by rw [hpc]; rfl)
        rw [h3] at h2
        exact ChildState.noConfusion h2
      · intro h
        exact ChildState.noConfusion h
    case reapOnce => exact reapOnce
    case tPollNW => intro u _; rfl
    case relockNR =>
      exact relockNR_update relockNR
        (fun h => h.elim (fun h2 => ThreadProg.noConfusion h2)
          (fun h2 => ThreadProg.noConfusion h2))
    case doneOkExited =>
      refine doneOk_update ?_ ?_
      · intro u s hu2
        have h2 := doneOkExited u s hu2
        have h3 := secWaiting t (by rw [hpc]; rfl)
        rw [h3] at h2
        exact ChildState.noConfusion h2
      · intro s h2
        simp at h2
    case secWaited => exact secWaited_update secWaited (fun h => Bool.noConfusion h)
    case waitedUnique => intro h; exact absurd h (Nat.succ_ne_zero _)
    case waitedNW => intro h; exact absurd h (Nat.succ_ne_zero _)
    case noWErr => intro h; exact absurd h (Nat.succ_ne_zero _)
  | tLockAcq _ t hpc hfree =>
    constructor <;> (try dsimp only)
    case lockState => exact lockState_acquire lockState hfree rfl
    case lockChild =>
      exact lockChild_unchanged lockChild hpc (fun h => ThreadProg.noConfusion h)
        (fun h => ThreadProg.noConfusion h)
    case secWaiting => exact secWaiting_update secWaiting (fun h => Bool.noConfusion h)
    case secUnique => exact secUnique_update secUnique (fun h => Bool.noConfusion h)
    case waitingSec =>
      intro hw
      exact waitingSec_update (waitingSec hw)
        (fun h => by rw [hpc] at h; exact Bool.noConfusion h)
    case osReaped => exact osReaped
    case reapOnce => exact reapOnce
    case tPollNW => exact tPollNW_update tPollNW (fun h => ThreadProg.noConfusion h)
    case relockNR =>
      exact relockNR_update relockNR
        (fun h => h.elim (fun h2 => ThreadProg.noConfusion h2)
          (fun h2 => ThreadProg.noConfusion h2))
    case doneOkExited => exact doneOk_update doneOkExited (fun s h => ThreadProg.noConfusion h)
    case secWaited => exact secWaited_update secWaited (fun h => Bool.noConfusion h)
    case waitedUnique => exact waitedUnique
    case waitedNW => exact waitedNW
    case noWErr =>
      intro h
      exact noWErr_update (noWErr h) (fun e => by refine ⟨?_, ?_, ?_⟩ <;> simp)
  | tCheckWaiting _ t hpc hold hst =>
    constructor <;> (try dsimp only)
    case lockState => exact lockState_release lockState hold rfl
    case lockChild =>
      exact lockChild_unchanged lockChild hpc (fun h => ThreadProg.noConfusion h)
        (fun h => ThreadProg.noConfusion h)
    case secWaiting => exact secWaiting_update secWaiting (fun h => Bool.noConfusion h)
    case secUnique => exact secUnique_update secUnique (fun h => Bool.noConfusion h)
    case waitingSec =>
      intro hw
      exact waitingSec_update (waitingSec hw)
        (fun h => by rw [hpc] at h; exact Bool.noConfusion h)
    case osReaped => exact osReaped
    case reapOnce => exact reapOnce
    case tPollNW => exact tPollNW_update tPollNW (fun h => ThreadProg.noConfusion h)
    case relockNR =>
      exact relockNR_update relockNR
        (fun h => h.elim (fun h2 => ThreadProg.noConfusion h2)
          (fun h2 => ThreadProg.noConfusion h2))
    case doneOkExited => exact doneOk_update doneOkExited (fun s h => by simp at h)
    case secWaited => exact secWaited_update secWaited (fun h => Bool.noConfusion h)
    case waitedUnique => exact waitedUnique
    case waitedNW => exact waitedNW
    case noWErr =>
      intro h
      exact noWErr_update (noWErr h) (fun e => by refine ⟨?_, ?_, ?_⟩ <;> simp)
  | tCheckExited _ t s hpc hold hst =>
    constructor <;> (try dsimp only)
    case lockState => exact lockState_release lockState hold rfl
    case lockChild =>
      exact lockChild_unchanged lockChild hpc (fun h => ThreadProg.noConfusion h)
        (fun h => ThreadProg.noConfusion h)
    case secWaiting => exact secWaiting_update secWaiting (fun h => Bool.noConfusion h)
    case secUnique => exact secUnique_update secUnique (fun h => Bool.noConfusion h)
    case waitingSec =>
      intro hw
      exact waitingSec_update (waitingSec hw)
        (fun h => by rw [hpc] at h; exact Bool.noConfusion h)
    case osReaped => exact osReaped
    case reapOnce => exact reapOnce
    case tPollNW => exact tPollNW_update tPollNW (fun h => ThreadProg.noConfusion h)
    case relockNR =>
      exact relockNR_update relockNR
        (fun h => h.elim (fun h2 => ThreadProg.noConfusion h2)
          (fun h2 => ThreadProg.noConfusion h2))
    case doneOkExited => exact doneOk_update doneOkExited (fun s2 h => by simp at h)
    case secWaited => exact secWaited_update secWaited (fun h => Bool.noConfusion h)
    case waitedUnique => exact waitedUnique
    case waitedNW => exact waitedNW
    case noWErr =>
      intro h
      exact noWErr_update (noWErr h) (fun e => by refine ⟨?_, ?_, ?_⟩ <;> simp)
  | tCheckNotWaiting _ t hpc hold hst =>
    constructor <;> (try dsimp only)
    case lockState => exact lockState_keep lockState hold rfl
    case lockChild =>
      exact lockChild_unchanged lockChild hpc (fun h => ThreadProg.noConfusion h)
        (fun h => ThreadProg.noConfusion h)
    case secWaiting => exact secWaiting_update secWaiting (fun h => Bool.noConfusion h)
    case secUnique => exact secUnique_update secUnique (fun h => Bool.noConfusion h)
    case waitingSec =>
      intro hw
      exact waitingSec_update (waitingSec hw)
        (fun h => by rw [hpc] at h; exact Bool.noConfusion h)
    case osReaped => exact osReaped
    case reapOnce => exact reapOnce
    case tPollNW => exact tPollNW_update tPollNW (fun _ => hst)
    case relockNR =>
      exact relockNR_update relockNR
        (fun h => h.elim (fun h2 => ThreadProg.noConfusion h2)
          (fun h2 => ThreadProg.noConfusion h2))
    case doneOkExited => exact doneOk_update doneOkExited (fun s h => ThreadProg.noConfusion h)
    case secWaited => exact secWaited_update secWaited (fun h => Bool.noConfusion h)
    case waitedUnique => exact waitedUnique
    case waitedNW => exact waitedNW
    case noWErr =>
      intro h
      exact noWErr_update (noWErr h) (fun e => by refine ⟨?_, ?_, ?_⟩ <;> simp)
  | tPollExited _ t s hpc hold hos =>
    constructor <;> (try dsimp only)
    case lockState => exact lockState_release lockState hold rfl
    case lockChild =>
      exact lockChild_unchanged lockChild hpc (fun h => ThreadProg.noConfusion h)
        (fun h => ThreadProg.noConfusion h)
    case secWaiting =>
      intro u hu2
      rcases eq_or_ne u t with rfl | hu
      · rw [upd_at] at hu2
        exact Bool.noConfusion hu2
      · rw [upd_ne _ _ hu] at hu2
        have h2 := secWaiting u hu2
        rw [tPollNW t hpc] at h2
        exact ChildState.noConfusion h2
    case secUnique => exact secUnique_update secUnique (fun h => Bool.noConfusion h)
    case waitingSec => intro hw; exact ChildState.noConfusion hw
    case osReaped =>
      intro s2
      constructor
      · intro h
        injection h with h2
        rw [h2]
      · intro h
        injection h with h2
        rw [h2]
    case reapOnce =>
      have h0 : c.reapCount = 0 := by rw [reapOnce, hos]
      rw [h0]
    case tPollNW =>
      intro u hu2
      rcases eq_or_ne u t with rfl | hu
      · rw [upd_at] at hu2
        exact ThreadProg.noConfusion hu2
      · rw [upd_ne _ _ hu] at hu2
        have h2 := (lockState u).mp (by rw [hu2]; rfl)
        rw [hold] at h2
        injection h2 with h2
        exact absurd h2.symm hu
    case relockNR => intro u _ h2; exact OsProc.noConfusion h2
    case doneOkExited =>
      refine doneOk_update ?_ ?_
      · intro u s2 hu2
        have h2 := doneOkExited u s2 hu2
        rw [tPollNW t hpc] at h2
        exact ChildState.noConfusion h2
      · intro s2 h2
        simp at h2
    case secWaited => exact secWaited_update secWaited (fun h => Bool.noConfusion h)
    case waitedUnique => exact waitedUnique
    case waitedNW => intro _ h2; exact ChildState.noConfusion h2
    case noWErr =>
      intro h
      exact noWErr_update (noWErr h) (fun e => by refine ⟨?_, ?_, ?_⟩ <;> simp)
  | tPollRunning _ t hpc hold hos =>
    constructor <;> (try dsimp only)
    case lockState => exact lockState_release lockState hold rfl
    case lockChild =>
      exact lockChild_unchanged lockChild hpc (fun h => ThreadProg.noConfusion h)
        (fun h => ThreadProg.noConfusion h)
    case secWaiting => exact secWaiting_update secWaiting (fun h => Bool.noConfusion h)
    case secUnique => exact secUnique_update secUnique (fun h => Bool.noConfusion h)
    case waitingSec =>
      intro hw
      exact waitingSec_update (waitingSec hw)
        (fun h => by rw [hpc] at h; exact Bool.noConfusion h)
    case osReaped => exact osReaped
    case reapOnce => exact reapOnce
    case tPollNW => exact tPollNW_update tPollNW (fun h => ThreadProg.noConfusion h)
    case relockNR =>
      exact relockNR_update relockNR
        (fun h => h.elim (fun h2 => ThreadProg.noConfusion h2)
          (fun h2 => ThreadProg.noConfusion h2))
    case doneOkExited => exact doneOk_update doneOkExited (fun s h => by simp at h)
    case secWaited => exact secWaited_update secWaited (fun h => Bool.noConfusion h)
    case waitedUnique => exact waitedUnique
    case waitedNW => exact waitedNW
    case noWErr =>
      intro h
      exact noWErr_update (noWErr h) (fun e => by refine ⟨?_, ?_, ?_⟩ <;> simp)
  | tPollReaped _ t s hpc hold hos =>
    have h2 := (osReaped s).mp hos
    rw [tPollNW t hpc] at h2
    exact ChildState.noConfusion h2
  | tPollInjErr _ t e hpc hold =>
    constructor <;> (try dsimp only)
    case lockState => exact lockState_release lockState hold rfl
    case lockChild =>
      exact lockChild_unchanged lockChild hpc (fun h => ThreadProg.noConfusion h)
        (fun h => ThreadProg.noConfusion h)
    case secWaiting => exact secWaiting_update secWaiting (fun h => Bool.noConfusion h)
    case secUnique => exact secUnique_update secUnique (fun h => Bool.noConfusion h)
    case waitingSec =>
      intro hw
      exact waitingSec_update (waitingSec hw)
        (fun h => by rw [hpc] at h; exact Bool.noConfusion h)
    case osReaped => exact osReaped
    case reapOnce => exact reapOnce
    case tPollNW => exact tPollNW_update tPollNW (fun h => ThreadProg.noConfusion h)
    case relockNR =>
      exact relockNR_update relockNR
        (fun h => h.elim (fun h2 => ThreadProg.noConfusion h2)
          (fun h2 => ThreadProg.noConfusion h2))
    case doneOkExited => exact doneOk_update doneOkExited (fun s h => by simp at h)
    case secWaited => exact secWaited_update secWaited (fun h => Bool.noConfusion h)
    case waitedUnique => intro h; exact absurd h (Nat.succ_ne_zero _)
    case waitedNW => intro h; exact absurd h (Nat.succ_ne_zero _)
    case noWErr => intro h; exact absurd h (Nat.succ_ne_zero _)
  | kLockAcq _ t hpc hfree =>
    constructor <;> (try dsimp only)
    case lockState => exact lockState_acquire lockState hfree rfl
    case lockChild =>
      exact lockChild_unchanged lockChild hpc (fun h => ThreadProg.noConfusion h)
        (fun h => ThreadProg.noConfusion h)
    case secWaiting => exact secWaiting_update secWaiting (fun h => Bool.noConfusion h)
    case secUnique => exact secUnique_update secUnique (fun h => Bool.noConfusion h)
    case waitingSec =>
      intro hw
      exact waitingSec_update (waitingSec hw)
        (fun h => by rw [hpc] at h; exact Bool.noConfusion h)
    case osReaped => exact osReaped
    case reapOnce => exact reapOnce
    case tPollNW => exact tPollNW_update tPollNW (fun h => ThreadProg.noConfusion h)
    case relockNR =>
      exact relockNR_update relockNR
        (fun h => h.elim (fun h2 => ThreadProg.noConfusion h2)
          (fun h2 => ThreadProg.noConfusion h2))
    case doneOkExited => exact doneOk_update doneOkExited (fun s h => ThreadProg.noConfusion h)
    case secWaited => exact secWaited_update secWaited (fun h => Bool.noConfusion h)
    case waitedUnique => exact waitedUnique
    case waitedNW => exact waitedNW
    case noWErr =>
      intro h
      exact noWErr_update (noWErr h) (fun e => by refine ⟨?_, ?_, ?_⟩ <;> simp)
  | kCheckExited _ t s hpc hold hst =>
    constructor <;> (try dsimp only)
    case lockState => exact lockState_release lockState hold rfl
    case lockChild =>
      exact lockChild_unchanged lockChild hpc (fun h => ThreadProg.noConfusion h)
        (fun h => ThreadProg.noConfusion h)
    case secWaiting => exact secWaiting_update secWaiting (fun h => Bool.noConfusion h)
    case secUnique => exact secUnique_update secUnique (fun h => Bool.noConfusion h)
    case waitingSec =>
      intro hw
      exact waitingSec_update (waitingSec hw)
        (fun h => by rw [hpc] at h; exact Bool.noConfusion h)
    case osReaped => exact osReaped
    case reapOnce => exact reapOnce
    case tPollNW => exact tPollNW_update tPollNW (fun h => ThreadProg.noConfusion h)
    case relockNR =>
      exact relockNR_update relockNR
        (fun h => h.elim (fun h2 => ThreadProg.noConfusion h2)
          (fun h2 => ThreadProg.noConfusion h2))
    case doneOkExited => exact doneOk_update doneOkExited (fun s2 h => by simp at h)
    case secWaited => exact secWaited_update secWaited (fun h => Bool.noConfusion h)
    case waitedUnique => exact waitedUnique
    case waitedNW => exact waitedNW
    case noWErr =>
      intro h
      exact noWErr_update (noWErr h) (fun e => by refine ⟨?_, ?_, ?_⟩ <;> simp)
  | kCheckLive _ t hpc hold hst =>
    constructor <;> (try dsimp only)
    case lockState => exact lockState_keep lockState hold rfl
    case lockChild =>
      exact lockChild_unchanged lockChild hpc (fun h => ThreadProg.noConfusion h)
        (fun h => ThreadProg.noConfusion h)
    case secWaiting => exact secWaiting_update secWaiting (fun h => Bool.noConfusion h)
    case secUnique => exact secUnique_update secUnique (fun h => Bool.noConfusion h)
    case waitingSec =>
      intro hw
      exact waitingSec_update (waitingSec hw)
        (fun h => by rw [hpc] at h; exact Bool.noConfusion h)
    case osReaped => exact osReaped
    case reapOnce => exact reapOnce
    case tPollNW => exact tPollNW_update tPollNW (fun h => ThreadProg.noConfusion h)
    case relockNR =>
      exact relockNR_update relockNR
        (fun h => h.elim (fun h2 => ThreadProg.noConfusion h2)
          (fun h2 => ThreadProg.noConfusion h2))
    case doneOkExited => exact doneOk_update doneOkExited (fun s h => ThreadProg.noConfusion h)
    case secWaited => exact secWaited_update secWaited (fun h => Bool.noConfusion h)
    case waitedUnique => exact waitedUnique
    case waitedNW => exact waitedNW
    case noWErr =>
      intro h
      exact noWErr_update (noWErr h) (fun e => by refine ⟨?_, ?_, ?_⟩ <;> simp)
  | kChildAcq _ t hpc hold hchild =>
    constructor <;> (try dsimp only)
    case lockState => exact lockState_keep lockState hold rfl
    case lockChild =>
      intro u
      rcases eq_or_ne u t with rfl | hu
      · rw [upd_at]; simp
      · rw [upd_ne _ _ hu]
        constructor
        · intro h
          have h2 := (lockChild u).mp h
          rw [hchild] at h2
          exact Option.noConfusion h2
        · intro h
          injection h with h
          exact absurd h.symm hu
    case secWaiting => exact secWaiting_update secWaiting (fun h => Bool.noConfusion h)
    case secUnique => exact secUnique_update secUnique (fun h => Bool.noConfusion h)
    case waitingSec =>
      intro hw
      exact waitingSec_update (waitingSec hw)
        (fun h => by rw [hpc] at h; exact Bool.noConfusion h)
    case osReaped => exact osReaped
    case reapOnce => exact reapOnce
    case tPollNW => exact tPollNW_update tPollNW (fun h => ThreadProg.noConfusion h)
    case relockNR =>
      exact relockNR_update relockNR
        (fun h => h.elim (fun h2 => ThreadProg.noConfusion h2)
          (fun h2 => ThreadProg.noConfusion h2))
    case doneOkExited => exact doneOk_update doneOkExited (fun s h => ThreadProg.noConfusion h)
    case secWaited => exact secWaited_update secWaited (fun h => Bool.noConfusion h)
    case waitedUnique => exact waitedUnique
    case waitedNW => exact waitedNW
    case noWErr =>
      intro h
      exact noWErr_update (noWErr h) (fun e => by refine ⟨?_, ?_, ?_⟩ <;> simp)
  | kSignalOk _ t hpc hold hchild =>
    constructor <;> (try dsimp only)
    case lockState => exact lockState_release lockState hold rfl
    case lockChild =>
      intro u
      rcases eq_or_ne u t with rfl | hu
      · rw [upd_at]
        constructor
        · intro h; exact ThreadProg.noConfusion h
        · intro h; exact Option.noConfusion h
      · rw [upd_ne _ _ hu]
        constructor
        · intro h
          have h2 := (lockChild u).mp h
          rw [hchild] at h2
          injection h2 with h2
          exact absurd h2.symm hu
        · intro h; exact Option.noConfusion h
    case secWaiting => exact secWaiting_update secWaiting (fun h => Bool.noConfusion h)
    case secUnique => exact secUnique_update secUnique (fun h => Bool.noConfusion h)
    case waitingSec =>
      intro hw
      exact waitingSec_update (waitingSec hw)
        (fun h => by rw [hpc] at h; exact Bool.noConfusion h)
    case osReaped => exact osReaped
    case reapOnce => exact reapOnce
    case tPollNW => exact tPollNW_update tPollNW (fun h => ThreadProg.noConfusion h)
    case relockNR =>
      exact relockNR_update relockNR
        (fun h => h.elim (fun h2 => ThreadProg.noConfusion h2)
          (fun h2 => ThreadProg.noConfusion h2))
    case doneOkExited => exact doneOk_update doneOkExited (fun s h => by simp at h)
    case secWaited => exact secWaited_update secWaited (fun h => Bool.noConfusion h)
    case waitedUnique => exact waitedUnique
    case waitedNW => exact waitedNW
    case noWErr =>
      intro h
      exact noWErr_update (noWErr h) (fun e => by refine ⟨?_, ?_, ?_⟩ <;> simp)
  | kSignalErr _ t e hpc hold hchild =>
    constructor <;> (try dsimp only)
    case lockState => exact lockState_release lockState hold rfl
    case lockChild =>
      intro u
      rcases eq_or_ne u t with rfl | hu
      · rw [upd_at]
        constructor
        · intro h; exact ThreadProg.noConfusion h
        · intro h; exact Option.noConfusion h
      · rw [upd_ne _ _ hu]
        constructor
        · intro h
          have h2 := (lockChild u).mp h
          rw [hchild] at h2
          injection h2 with h2
          exact absurd h2.symm hu
        · intro h; exact Option.noConfusion h
    case secWaiting => exact secWaiting_update secWaiting (fun h => Bool.noConfusion h)
    case secUnique => exact secUnique_update secUnique (fun h => Bool.noConfusion h)
    case waitingSec =>
      intro hw
      exact waitingSec_update (waitingSec hw)
        (fun h => by rw [hpc] at h; exact Bool.noConfusion h)
    case osReaped => exact osReaped
    case reapOnce => exact reapOnce
    case tPollNW => exact tPollNW_update tPollNW (fun h => ThreadProg.noConfusion h)
    case relockNR =>
      exact relockNR_update relockNR
        (fun h => h.elim (fun h2 => ThreadProg.noConfusion h2)
          (fun h2 => ThreadProg.noConfusion h2))
    case doneOkExited => exact doneOk_update doneOkExited (fun s h => by simp at h)
    case secWaited => exact secWaited_update secWaited (fun h => Bool.noConfusion h)
    case waitedUnique => intro h; exact absurd h (Nat.succ_ne_zero _)
    case waitedNW => intro h; exact absurd h (Nat.succ_ne_zero _)
    case noWErr => intro h; exact absurd h (Nat.succ_ne_zero _)
  | procExit _ s hos =>
    constructor <;> (try dsimp only)
    case lockState => exact lockState
    case lockChild => exact lockChild
    case secWaiting => exact secWaiting
    case secUnique => exact secUnique
    case waitingSec => exact waitingSec
    case osReaped =>
      intro s2
      constructor
      · intro h; exact OsProc.noConfusion h
      · intro h
        have h2 := (osReaped s2).mpr h
        rw [hos] at h2
        exact OsProc.noConfusion h2
    case reapOnce => rw [reapOnce, hos]
    case tPollNW => exact tPollNW
    case relockNR => intro u hP; exact absurd hos (relockNR u hP)
    case doneOkExited => exact doneOkExited
    case secWaited => exact secWaited
    case waitedUnique => exact waitedUnique
    case waitedNW => exact waitedNW
    case noWErr => exact noWErr

theorem waitPc_update {n : Nat} {f : Fin n → ThreadProg} {t : Fin n} {newPc : ThreadProg}
    (hpre : ∀ u, waitPc (f u)) (hnew : waitPc newPc) :
    ∀ u, waitPc (Function.update f t newPc u) := by
  intro u
  rcases eq_or_ne u t with rfl | hu
  · rw [upd_at]; exact hnew
  · rw [upd_ne _ _ hu]; exact hpre u

/-- The wait-only invariant is preserved by every step. -/
theorem winv_step {n : Nat} {l : Label n} {c c2 : Config n}
    (hinv : Inv c) (hw : WInv c) (hs : Step l c c2) : WInv c2 := by
  cases hs with
  | wLockAcq _ t hpc hfree =>
    exact ⟨waitPc_update hw.onlyWait True.intro, hw.exitedWaited⟩
  | wCheckNotWaiting _ t hpc hold hst =>
    exact ⟨waitPc_update hw.onlyWait True.intro, fun s h2 => ChildState.noConfusion h2⟩
  | wCheckWaiting _ t hpc hold hst =>
    exact ⟨waitPc_update hw.onlyWait True.intro, hw.exitedWaited⟩
  | wCheckExited _ t s hpc hold hst =>
    exact ⟨waitPc_update hw.onlyWait True.intro, hw.exitedWaited⟩
  | wWakeup _ t hpc =>
    exact ⟨waitPc_update hw.onlyWait True.intro, hw.exitedWaited⟩
  | wWakeAcq _ t hpc hfree =>
    exact ⟨waitPc_update hw.onlyWait True.intro, hw.exitedWaited⟩
  | wSysOk _ t hpc hos =>
    exact ⟨waitPc_update hw.onlyWait True.intro, hw.exitedWaited⟩
  | wSysErr _ t e hpc =>
    exact ⟨waitPc_update hw.onlyWait True.intro, hw.exitedWaited⟩
  | wRelockAcq _ t nr hpc hfree =>
    exact ⟨waitPc_update hw.onlyWait True.intro, hw.exitedWaited⟩
  | wReapNoreapErr _ t e hpc hold =>
    exact ⟨waitPc_update hw.onlyWait True.intro, fun s h2 => ChildState.noConfusion h2⟩
  | wReapOk _ t s hpc hold hos =>
    exact ⟨waitPc_update hw.onlyWait True.intro,
      fun s2 _ => ⟨t, hinv.secWaited t (by rw [hpc]; rfl)⟩⟩
  | wReapStillRunning _ t hpc hold hos =>
    exact ⟨waitPc_update hw.onlyWait True.intro, fun s h2 => ChildState.noConfusion h2⟩
  | wReapAlreadyReaped _ t s hpc hold hos =>
    exact ⟨waitPc_update hw.onlyWait True.intro, fun s2 h2 => ChildState.noConfusion h2⟩
  | wReapInjErr _ t e hpc hold =>
    exact ⟨waitPc_update hw.onlyWait True.intro, fun s h2 => ChildState.noConfusion h2⟩
  | tLockAcq _ t hpc hfree =>
    have h2 := hw.onlyWait t
    rw [hpc] at h2
    exact False.elim h2
  | tCheckWaiting _ t hpc hold hst =>
    have h2 := hw.onlyWait t
    rw [hpc] at h2
    exact False.elim h2
  | tCheckExited _ t s hpc hold hst =>
    have h2 := hw.onlyWait t
    rw [hpc] at h2
    exact False.elim h2
  | tCheckNotWaiting _ t hpc hold hst =>
    have h2 := hw.onlyWait t
    rw [hpc] at h2
    exact False.elim h2
  | tPollExited _ t s hpc hold hos =>
    have h2 := hw.onlyWait t
    rw [hpc] at h2
    exact False.elim h2
  | tPollRunning _ t hpc hold hos =>
    have h2 := hw.onlyWait t
    rw [hpc] at h2
    exact False.elim h2
  | tPollReaped _ t s hpc hold hos =>
    have h2 := hw.onlyWait t
    rw [hpc] at h2
    exact False.elim h2
  | tPollInjErr _ t e hpc hold =>
    have h2 := hw.onlyWait t
    rw [hpc] at h2
    exact False.elim h2
  | kLockAcq _ t hpc hfree =>
    have h2 := hw.onlyWait t
    rw [hpc] at h2
    exact False.elim h2
  | kCheckExited _ t s hpc hold hst =>
    have h2 := hw.onlyWait t
    rw [hpc] at h2
    exact False.elim h2
  | kCheckLive _ t hpc hold hst =>
    have h2 := hw.onlyWait t
    rw [hpc] at h2
    exact False.elim h2
  | kChildAcq _ t hpc hold hchild =>
    have h2 := hw.onlyWait t
    rw [hpc] at h2
    exact False.elim h2
  | kSignalOk _ t hpc hold hchild =>
    have h2 := hw.onlyWait t
    rw [hpc] at h2
    exact False.elim h2
  | kSignalErr _ t e hpc hold hchild =>
    have h2 := hw.onlyWait t
    rw [hpc] at h2
    exact False.elim h2
  | procExit _ s hos =>
    exact ⟨hw.onlyWait, hw.exitedWaited⟩

theorem reach_inv {n : Nat} {c c2 : Config n} (hinv : Inv c) (hr : Reach c c2) : Inv c2 := by
  induction hr with
  | refl => exact hinv
  | tail _ hstep ih =>
    obtain ⟨l, hl⟩ := hstep
    exact inv_step ih hl

theorem reachable_inv {n : Nat} {c : Config n} (h : Reachable c) : Inv c := by
  obtain ⟨c0, h0, hr⟩ := h
  exact reach_inv (init_inv h0) hr

theorem reach_winv {n : Nat} {c c2 : Config n} (hinv : Inv c) (hw : WInv c)
    (hr : Reach c c2) : Inv c2 ∧ WInv c2 := by
  induction hr with
  | refl => exact ⟨hinv, hw⟩
  | tail _ hstep ih =>
    obtain ⟨l, hl⟩ := hstep
    exact ⟨inv_step ih.1 hl, winv_step ih.1 ih.2 hl⟩

theorem winit_winv {n : Nat} {c : Config n} (h : WInit c) : WInv c := by
  constructor
  · intro t
    rw [h.2 t]
    exact True.intro
  · intro s h2
    rw [h.1.hstate] at h2
    exact ChildState.noConfusion h2

theorem wreachable_invs {n : Nat} {c : Config n} (h : WReachable c) : Inv c ∧ WInv c := by
  obtain ⟨c0, h0, hr⟩ := h
  exact reach_winv (init_inv h0.1) (winit_winv h0) hr

theorem isDone_eq {p : ThreadProg} (h : isDone p = true) : ∃ r, p = .done r := by
  cases p <;> first | exact ⟨_, rfl⟩ | exact Bool.noConfusion h

theorem waitPc_done {r : RetVal} (h : waitPc (.done r)) : ∃ r2, r = .wRet r2 := by
  cases r with
  | wRet r2 => exact ⟨r2, rfl⟩
  | tRet r2 => exact False.elim h
  | kRet r2 => exact False.elim h

theorem step_other_thread {n : Nat} {u : Fin n} {c c2 : Config n}
    (hs : Step (.thread u) c c2) {t : Fin n} (htu : t ≠ u) :
    c2.threads t = c.threads t := by
  cases hs <;> (dsimp only; rw [upd_ne _ _ htu])

theorem step_self_wBlocked {n : Nat} {t : Fin n} {c c2 : Config n}
    (hs : Step (.thread t) c c2) (hpc0 : c.threads t = .wBlocked) :
    c2.threads t = .wWake := by
  cases hs <;> dsimp only <;> rw [upd_at] <;> simp_all

theorem step_self_wWake {n : Nat} {t : Fin n} {c c2 : Config n}
    (hs : Step (.thread t) c c2) (hpc0 : c.threads t = .wWake) :
    c2.threads t = .wCheck := by
  cases hs <;> dsimp only <;> rw [upd_at] <;> simp_all

theorem step_self_wCheck_notWaiting {n : Nat} {t : Fin n} {c c2 : Config n}
    (hs : Step (.thread t) c c2) (hpc0 : c.threads t = .wCheck)
    (hst0 : c.childState = .NotWaiting) :
    c2.threads t = .wSys := by
  cases hs <;> dsimp only <;> rw [upd_at] <;> simp_all

theorem w1_winit : WInit w1c0 :=
  ⟨⟨rfl, rfl, rfl, rfl, fun t => Or.inl rfl, rfl, fun t => rfl, rfl⟩, fun t => rfl⟩

theorem w1_reach5 : Reach w1c0 w1c5 :=
  Relation.ReflTransGen.tail
    (Relation.ReflTransGen.tail
      (Relation.ReflTransGen.tail
        (Relation.ReflTransGen.tail
          (Relation.ReflTransGen.tail Relation.ReflTransGen.refl
            ⟨_, Step.wLockAcq w1c0 0 rfl rfl⟩)
          ⟨_, Step.wCheckNotWaiting w1c1 0 rfl rfl rfl⟩)
        ⟨_, Step.procExit w1c2 0 rfl⟩)
      ⟨_, Step.wSysOk w1c3 0 rfl (by decide)⟩)
    ⟨_, Step.wRelockAcq w1c4 0 (.ok ()) rfl rfl⟩

theorem w1_reach : Reach w1c0 w1c6 :=
  Relation.ReflTransGen.tail w1_reach5 ⟨_, Step.wReapOk w1c5 0 0 rfl rfl rfl⟩

theorem t1_init : Init t1c0 :=
  ⟨rfl, rfl, rfl, rfl, fun t => Or.inr (Or.inl rfl), rfl, fun t => rfl, rfl⟩

theorem t1_reach : Reach t1c0 t1c3 :=
  Relation.ReflTransGen.tail
    (Relation.ReflTransGen.tail
      (Relation.ReflTransGen.tail Relation.ReflTransGen.refl
        ⟨_, Step.procExit t1c0 5 rfl⟩)
      ⟨_, Step.tLockAcq t1c1 0 rfl rfl⟩)
    ⟨_, Step.tCheckNotWaiting t1c2 0 rfl rfl rfl⟩

theorem k1_init : Init k1c0 :=
  ⟨rfl, rfl, rfl, rfl, fun t => Or.inr (Or.inr rfl), rfl, fun t => rfl, rfl⟩

theorem k1_reach : Reach k1c0 k1c3 :=
  Relation.ReflTransGen.tail
    (Relation.ReflTransGen.tail
      (Relation.ReflTransGen.tail Relation.ReflTransGen.refl
        ⟨_, Step.kLockAcq k1c0 0 rfl rfl⟩)
      ⟨_, Step.kCheckLive k1c1 0 rfl rfl (fun s h => ChildState.noConfusion h)⟩)
    ⟨_, Step.kChildAcq k1c2 0 rfl rfl rfl⟩

theorem k2_init : Init k2c0 := by
  refine ⟨rfl, rfl, rfl, rfl, ?_, rfl, fun t => rfl, rfl⟩
  intro t
  fin_cases t
  · exact Or.inr (Or.inl rfl)
  · exact Or.inr (Or.inr rfl)

theorem k2_reach : Reach k2c0 k2c4 :=
  Relation.ReflTransGen.tail
    (Relation.ReflTransGen.tail
      (Relation.ReflTransGen.tail
        (Relation.ReflTransGen.tail Relation.ReflTransGen.refl
          ⟨_, Step.procExit k2c0 7 rfl⟩)
        ⟨_, Step.tLockAcq k2c1 0 rfl rfl⟩)
      ⟨_, Step.tCheckNotWaiting k2c2 0 rfl rfl rfl⟩)
    ⟨_, Step.tPollExited k2c3 0 7 rfl rfl rfl⟩

theorem k2_step5 : Step (.thread 1) k2c4 k2c5 :=
  Step.kLockAcq k2c4 1 (by decide) rfl

theorem k2_step6 : Step (.thread 1) k2c5 k2c6 :=
  Step.kCheckExited k2c5 1 7 (by decide) rfl rfl

theorem e2_init : Init e2c0 :=
  ⟨rfl, rfl, rfl, rfl, fun t => Or.inl rfl, rfl, fun t => rfl, rfl⟩

theorem e2_reach7 : Reach e2c0 e2c7 :=
  Relation.ReflTransGen.tail
    (Relation.ReflTransGen.tail
      (Relation.ReflTransGen.tail
        (Relation.ReflTransGen.tail
          (Relation.ReflTransGen.tail
            (Relation.ReflTransGen.tail
              (Relation.ReflTransGen.tail Relation.ReflTransGen.refl
                ⟨_, Step.wLockAcq e2c0 0 rfl rfl⟩)
              ⟨_, Step.wCheckNotWaiting e2c1 0 rfl rfl rfl⟩)
            ⟨_, Step.wLockAcq e2c2 1 (by decide) rfl⟩)
          ⟨_, Step.wCheckWaiting e2c3 1 (by decide) rfl rfl⟩)
        ⟨_, Step.wSysErr e2c4 0 (.os 5) (by decide)⟩)
      ⟨_, Step.wRelockAcq e2c5 0 (.error (.os 5)) (by decide) rfl⟩)
    ⟨_, Step.wReapNoreapErr e2c6 0 (.os 5) (by decide) rfl⟩

theorem e2_reach14 : Reach e2c7 e2c14 :=
  Relation.ReflTransGen.tail
    (Relation.ReflTransGen.tail
      (Relation.ReflTransGen.tail
        (Relation.ReflTransGen.tail
          (Relation.ReflTransGen.tail
            (Relation.ReflTransGen.tail
              (Relation.ReflTransGen.tail Relation.ReflTransGen.refl
                ⟨_, Step.wWakeup e2c7 1 (by decide)⟩)
              ⟨_, Step.wWakeAcq e2c8 1 (by decide) rfl⟩)
            ⟨_, Step.wCheckNotWaiting e2c9 1 (by decide) rfl rfl⟩)
          ⟨_, Step.procExit e2c10 7 rfl⟩)
        ⟨_, Step.wSysOk e2c11 1 (by decide) (by decide)⟩)
      ⟨_, Step.wRelockAcq e2c12 1 (.ok ()) (by decide) rfl⟩)
    ⟨_, Step.wReapOk e2c13 1 7 (by decide) rfl rfl⟩

/-- C1: for N threads concurrently calling `wait` on the same
`SharedChild`, at most one thread is inside the `Waiting` critical
section at any instant, a thread in the section is exactly one that
observed `NotWaiting` and set `Waiting` (recorded by the `waited`
ghost), a thread that never performed the blocking platform wait is
never inside the section (it only blocks on the condvar), and in a
platform-error-free execution in which all N calls have returned,
exactly one thread performed the platform non-reaping wait call. -/
theorem wait_single_waiter {n : Nat} (c : Config n) (h : WReachable c) :
    (∀ t u, inSection (c.threads t) = true → inSection (c.threads u) = true → t = u) ∧
    (∀ t, inSection (c.threads t) = true → c.childState = .Waiting ∧ c.waited t = true) ∧
    (∀ t, c.waited t = false → inSection (c.threads t) = false) ∧
    (c.errs = 0 → (∀ t, isDone (c.threads t) = true) → 0 < n →
      ∃! t, c.waited t = true) := by
  obtain ⟨hinv, hwinv⟩ := wreachable_invs h
  refine ⟨hinv.secUnique, ?_, ?_, ?_⟩
  · intro t ht
    exact ⟨hinv.secWaiting t ht, hinv.secWaited t ht⟩
  · intro t hf
    cases h2 : inSection (c.threads t) with
    | false => rfl
    | true =>
      rw [hinv.secWaited t h2] at hf
      exact Bool.noConfusion hf
  · intro herr hdone hn
    have hex : ∃ s, c.childState = .Exited s := by
      obtain ⟨r, hr0⟩ := isDone_eq (hdone ⟨0, hn⟩)
      have hone := hwinv.onlyWait ⟨0, hn⟩
      rw [hr0] at hone
      obtain ⟨r2, rfl⟩ := waitPc_done hone
      cases r2 with
      | ok s => exact ⟨s, hinv.doneOkExited ⟨0, hn⟩ s hr0⟩
      | error e => exact absurd hr0 ((hinv.noWErr herr ⟨0, hn⟩ e).2.2)
    obtain ⟨s, hexs⟩ := hex
    obtain ⟨t1, ht1⟩ := hwinv.exitedWaited s hexs
    exact ⟨t1, ht1, fun u hu => hinv.waitedUnique herr u t1 hu ht1⟩

/-- C1 witness: the one-thread terminated execution `w1` is reachable
from an all-`wait` initial configuration with no platform errors, and
exactly one thread performed the platform wait. -/
theorem wait_single_waiter_witness : ∃! t : Fin 1, w1c6.waited t = true :=
  (wait_single_waiter w1c6 ⟨w1c0, w1_winit, w1_reach⟩).2.2.2 rfl (by decide) (by decide)

/-- C2 counterexample: when the blocking wait itself failed, the final
reap attempt is not performed — `and_then` skips the reap closure, so
the epilogue's event log contains no platform poll — refuting
"regardless of the non-reaping wait's outcome ... performs a
non-blocking reap". -/
theorem no_reap_on_blocking_error_counterexample :
    ¬ Event.evTryWait ∈ (SharedChild.waitEpilogue .running (.error (.os 5)) none).2.2.2 := by
  decide

/-- C2 (amended): the waiter re-acquires the state lock; when the
blocking wait succeeded a non-blocking reap is performed: a status
yields `Exited(status)` returned to the caller, "still running" yields
the internal inconsistency error and reverts to `NotWaiting`, a reap
failure reverts to `NotWaiting`; when the blocking wait itself failed,
no reap is attempted, the error is returned and the state reverts to
`NotWaiting`; in every case the condition variable is broadcast and the
state is never left as `Waiting`. -/
theorem waitEpilogue_spec (os os2 : OsProc) (noreap : Except IoErr Unit)
    (inj : Option IoErr) (e : IoErr) (s : ExitStatus) :
    SharedChild.waitEpilogue os (.error e) inj
      = (.NotWaiting, os, .error e, [.evNotifyAll]) ∧
    (sysTryWait os inj = (os2, .ok (some s)) →
      SharedChild.waitEpilogue os (.ok ()) inj
        = (.Exited s, os2, .ok s, [.evTryWait, .evNotifyAll])) ∧
    (sysTryWait os inj = (os2, .ok none) →
      SharedChild.waitEpilogue os (.ok ()) inj
        = (.NotWaiting, os2, .error (.other "blocking wait after child exit"),
            [.evTryWait, .evNotifyAll])) ∧
    (sysTryWait os inj = (os2, .error e) →
      SharedChild.waitEpilogue os (.ok ()) inj
        = (.NotWaiting, os2, .error e, [.evTryWait, .evNotifyAll])) ∧
    (SharedChild.waitEpilogue os noreap inj).1 ≠ .Waiting ∧
    Event.evNotifyAll ∈ (SharedChild.waitEpilogue os noreap inj).2.2.2 := by
  refine ⟨rfl, ?_, ?_, ?_, ?_, ?_⟩
  · intro h
    simp only [SharedChild.waitEpilogue]
    rw [h]
    rfl
  · intro h
    simp only [SharedChild.waitEpilogue]
    rw [h]
    rfl
  · intro h
    simp only [SharedChild.waitEpilogue]
    rw [h]
    rfl
  · cases noreap with
    | error e2 => exact fun h2 => ChildState.noConfusion h2
    | ok u =>
      rcases hq : sysTryWait os inj with ⟨os3, r⟩
      simp only [SharedChild.waitEpilogue]
      rw [hq]
      cases r with
      | error e2 => exact fun h2 => ChildState.noConfusion h2
      | ok o =>
        cases o with
        | none => exact fun h2 => ChildState.noConfusion h2
        | some s2 => exact fun h2 => ChildState.noConfusion h2
  · cases noreap with
    | error e2 => exact List.mem_singleton.mpr rfl
    | ok u => simp [SharedChild.waitEpilogue]

/-- C2 witness: a successful blocking wait followed by a successful reap
of exit status 0. -/
theorem waitEpilogue_spec_witness :
    SharedChild.waitEpilogue (.exited 0) (.ok ()) none
      = (.Exited 0, .reaped 0, .ok 0, [.evTryWait, .evNotifyAll]) :=
  (waitEpilogue_spec (.exited 0) (.reaped 0) (.ok ()) none (.os 1) 0).2.1 rfl

/-- C3 counterexample: a reachable reap step performed by a thread
transitioning the state out of `NotWaiting` (inside `try_wait`), not out
of `Waiting` — refuting "performed by whichever thread transitions the
state out of Waiting into Exited". -/
theorem reap_from_notWaiting_counterexample :
    Reachable t1c3 ∧ Step (.thread 0) t1c3 t1c4 ∧
    t1c4.reapCount = t1c3.reapCount + 1 ∧
    t1c3.childState = .NotWaiting ∧ ¬ t1c3.childState = .Waiting ∧
    t1c4.childState = .Exited 5 :=
  ⟨⟨t1c0, t1_init, t1_reach⟩, Step.tPollExited t1c3 0 5 rfl rfl rfl, rfl, rfl,
   by decide, rfl⟩

/-- C3 (amended): the OS-level reap happens at most once per
`SharedChild` — exactly once as soon as the state is `Exited` — and
every reap step is performed by a thread holding the state lock that
transitions the state into `Exited`, out of `Waiting` (in `wait`) or out
of `NotWaiting` (in `try_wait`). -/
theorem reap_once_characterization {n : Nat} (c c2 : Config n) (l : Label n)
    (h : Reachable c) (hs : Step l c c2) :
    c.reapCount ≤ 1 ∧
    (∀ s, c.childState = .Exited s → c.reapCount = 1) ∧
    (c2.reapCount = c.reapCount + 1 →
      ∃ t s, l = .thread t ∧ c.stateLockHolder = some t ∧
        c2.childState = .Exited s ∧ c2.os = .reaped s ∧
        (c.childState = .Waiting ∨ c.childState = .NotWaiting)) := by
  have hinv := reachable_inv h
  refine ⟨?_, ?_, ?_⟩
  · have h2 := hinv.reapOnce
    rcases hco : c.os with _ | s | s <;> rw [hco] at h2 <;> dsimp only at h2 <;> omega
  · intro s hex
    have h2 := hinv.reapOnce
    rw [(hinv.osReaped s).mpr hex] at h2
    dsimp only at h2
    exact h2
  · intro hinc
    cases hs
    all_goals try (dsimp only at hinc; exact absurd hinc (by omega))
    case wReapOk t s hpc hold hos =>
      exact ⟨t, s, rfl, hold, rfl, rfl, Or.inl (hinv.secWaiting t (by rw [hpc]; rfl))⟩
    case tPollExited t s hpc hold hos =>
      exact ⟨t, s, rfl, hold, rfl, rfl, Or.inr (hinv.tPollNW t hpc)⟩

/-- C3 witness: the reap step of the one-thread `wait` execution
increments the reap count and transitions the state into `Exited`. -/
theorem reap_once_characterization_witness :
    w1c5.reapCount ≤ 1 ∧
    (∃ t s, (Label.thread (0 : Fin 1)) = Label.thread t ∧
      w1c5.stateLockHolder = some t ∧ w1c6.childState = .Exited s ∧
      w1c6.os = .reaped s ∧
      (w1c5.childState = .Waiting ∨ w1c5.childState = .NotWaiting)) := by
  have h := reap_once_characterization w1c5 w1c6 (.thread 0)
    ⟨w1c0, w1_winit.1, w1_reach5⟩ (Step.wReapOk w1c5 0 0 rfl rfl rfl)
  exact ⟨h.1, h.2.2 rfl⟩

/-- C4: `Exited` is terminal: no step of any operation changes the state
away from `Exited(status)`, and with the state `Exited(status)` at
entry, `try_wait` returns `Ok(Some(status))` and `wait` returns
`Ok(status)`, with no platform call, no state change and no condvar
notification, no matter how often they are called. -/
theorem exited_terminal {n : Nat} (c c2 : Config n) (l : Label n) (s : ExitStatus)
    (h : Reachable c) (hs : Step l c c2) (hex : c.childState = .Exited s) :
    c2.childState = .Exited s ∧
    (∀ os inj, SharedChild.try_wait (.Exited s) os inj
      = (.Exited s, os, .ok (some s), [])) ∧
    (∀ os i1 i2, SharedChild.wait (.Exited s) os i1 i2
      = some (.Exited s, os, .ok s, [])) := by
  have hinv := reachable_inv h
  refine ⟨?_, fun os inj => rfl, fun os i1 i2 => rfl⟩
  cases hs
  all_goals try (dsimp only; exact hex)
  case wCheckNotWaiting t hpc hold hst =>
    rw [hex] at hst
    exact ChildState.noConfusion hst
  case wReapNoreapErr t e hpc hold =>
    have h2 := hinv.secWaiting t (by rw [hpc]; rfl)
    rw [hex] at h2
    exact ChildState.noConfusion h2
  case wReapOk t s2 hpc hold hos =>
    have h2 := hinv.secWaiting t (by rw [hpc]; rfl)
    rw [hex] at h2
    exact ChildState.noConfusion h2
  case wReapStillRunning t hpc hold hos =>
    have h2 := hinv.secWaiting t (by rw [hpc]; rfl)
    rw [hex] at h2
    exact ChildState.noConfusion h2
  case wReapAlreadyReaped t s2 hpc hold hos =>
    have h2 := hinv.secWaiting t (by rw [hpc]; rfl)
    rw [hex] at h2
    exact ChildState.noConfusion h2
  case wReapInjErr t e hpc hold =>
    have h2 := hinv.secWaiting t (by rw [hpc]; rfl)
    rw [hex] at h2
    exact ChildState.noConfusion h2
  case tPollExited t s2 hpc hold hos =>
    have h2 := hinv.tPollNW t hpc
    rw [hex] at h2
    exact ChildState.noConfusion h2

/-- C4 witness: after `try_wait` reaped exit status 7, a `kill` step
leaves the state `Exited 7`, and the cached status keeps being
returned. -/
theorem exited_terminal_witness :
    k2c5.childState = .Exited 7 ∧
    SharedChild.try_wait (.Exited 7) (.reaped 7) none
      = (.Exited 7, .reaped 7, .ok (some 7), []) :=
  ⟨(exited_terminal k2c4 k2c5 (.thread 1) 7 ⟨k2c0, k2_init, k2_reach⟩ k2_step5 rfl).1,
   (exited_terminal k2c4 k2c5 (.thread 1) 7 ⟨k2c0, k2_init, k2_reach⟩ k2_step5 rfl).2.1
     (.reaped 7) none⟩

/-- C5: `try_wait` at `Exited(status)` returns `Ok(Some(status))`
immediately with no platform call; at `Waiting` it returns `Ok(None)`
immediately with no platform call; at `NotWaiting` it performs exactly
one non-blocking platform poll: if the child has exited it reaps it,
transitions to `Exited(status)` and returns `Ok(Some(status))`,
otherwise it returns `Ok(None)` leaving the state `NotWaiting`. -/
theorem try_wait_spec (os : OsProc) (inj : Option IoErr) (s : ExitStatus) :
    SharedChild.try_wait (.Exited s) os inj = (.Exited s, os, .ok (some s), []) ∧
    SharedChild.try_wait .Waiting os inj = (.Waiting, os, .ok none, []) ∧
    SharedChild.try_wait .NotWaiting (.exited s) none
      = (.Exited s, .reaped s, .ok (some s), [.evTryWait]) ∧
    SharedChild.try_wait .NotWaiting .running none
      = (.NotWaiting, .running, .ok none, [.evTryWait]) :=
  ⟨rfl, rfl, rfl, rfl⟩

/-- C6: `kill` at `Exited` returns `Ok(())` without issuing the
termination signal and without touching any state; at `NotWaiting` or
`Waiting` it issues the signal on the locked process object and returns
the signal's outcome; in the step model, a `kill` thread inspecting an
`Exited` state returns immediately without acquiring the process
lock. -/
theorem kill_spec (s : ExitStatus) (os : OsProc) (sig : Except IoErr Unit) :
    SharedChild.kill (.Exited s) os sig = (.Exited s, os, .ok (), []) ∧
    SharedChild.kill .NotWaiting os sig = (.NotWaiting, os, sig, [.evKillSignal]) ∧
    SharedChild.kill .Waiting os sig = (.Waiting, os, sig, [.evKillSignal]) ∧
    (∀ {n : Nat} {c c2 : Config n} {t : Fin n},
      Step (.thread t) c c2 → c.threads t = .kCheck → c.childState = .Exited s →
      c2.threads t = .done (.kRet (.ok ())) ∧
      c2.childLockHolder = c.childLockHolder ∧
      c2.childState = c.childState ∧ c2.os = c.os) := by
  refine ⟨rfl, rfl, rfl, ?_⟩
  intro n c c2 t hs hpc0 hex0
  cases hs <;> dsimp only <;> simp_all [upd_at]

/-- C6 witness: the `kill` thread of the `k2` execution observes
`Exited 7` and returns success without acquiring the child lock. -/
theorem kill_spec_witness :
    k2c6.threads 1 = .done (.kRet (.ok ())) ∧
    k2c6.childLockHolder = k2c5.childLockHolder ∧
    k2c6.childState = k2c5.childState ∧ k2c6.os = k2c5.os :=
  (kill_spec 7 .running (.ok ())).2.2.2 k2_step6 (by decide) rfl

/-- C7 counterexample: a reachable configuration in which the `kill`
thread holds the state lock and the process lock at the same time (the
state-lock guard in `kill` lives to the end of the function body),
refuting "no single operation ever holds the state lock and the process
lock at the same time". -/
theorem kill_both_locks_counterexample :
    Reachable k1c3 ∧ k1c3.stateLockHolder = some 0 ∧ k1c3.childLockHolder = some 0 :=
  ⟨⟨k1c0, k1_init, k1_reach⟩, rfl, rfl⟩

/-- C7 (amended): `kill` is the only operation that ever holds the
process lock; the thread holding the process lock is in `kill`'s signal
section and still holds the state lock, and `kill` also holds the state
lock at the moment it acquires the process lock. `wait` and `try_wait`
never hold the process lock. -/
theorem kill_lock_nesting {n : Nat} (c : Config n) (h : Reachable c) :
    (∀ t, c.childLockHolder = some t →
      c.threads t = .kSignal ∧ c.stateLockHolder = some t) ∧
    (∀ t, c.threads t = .kAcqChild → c.stateLockHolder = some t) := by
  have hinv := reachable_inv h
  constructor
  · intro t hc
    have h2 := (hinv.lockChild t).mpr hc
    refine ⟨h2, (hinv.lockState t).mp ?_⟩
    rw [h2]
    rfl
  · intro t hk
    exact (hinv.lockState t).mp (by rw [hk]; rfl)

/-- C7 witness: in the `k1` execution the signaling thread holds both
locks, and it is in `kill`'s signal section. -/
theorem kill_lock_nesting_witness :
    k1c3.threads 0 = .kSignal ∧ k1c3.stateLockHolder = some 0 :=
  (kill_lock_nesting k1c3 ⟨k1c0, k1_init, k1_reach⟩).1 0 rfl

/-- C8 counterexample: thread 1 is queued on the condition variable
while the waiter (thread 0) fails with the OS error 5; thread 1 is then
woken, retries, and returns `Ok 7` — not the waiter's error — refuting
"every queued thread receives the same error". -/
theorem queued_thread_error_counterexample :
    Reachable e2c7 ∧
    e2c7.threads 0 = .done (.wRet (.error (.os 5))) ∧
    e2c7.threads 1 = .wBlocked ∧
    Reach e2c7 e2c14 ∧
    e2c14.threads 0 = .done (.wRet (.error (.os 5))) ∧
    e2c14.threads 1 = .done (.wRet (.ok 7)) ∧
    ¬ (Except.ok 7 : Except IoErr ExitStatus) = .error (.os 5) :=
  ⟨⟨e2c0, e2_init, e2_reach7⟩, by decide, by decide, e2_reach14, by decide, by decide,
   by decide⟩

/-- C8 (amended): when the waiter's wait fails, the state reverts to
`NotWaiting` and the condition variable is broadcast; a thread queued on
the condition variable never returns a result from the queue: a step
takes it from blocked to woken, from woken back to re-checking the
state, and on observing `NotWaiting` it becomes the next waiter and
retries the wait itself; the error is returned only to the waiter whose
own platform call failed. -/
theorem queued_threads_retry {n : Nat} (c c2 : Config n) (t : Fin n)
    (hs : Step (.thread t) c c2) :
    (∀ os e inj, SharedChild.waitEpilogue os (.error e) inj
        = (.NotWaiting, os, .error e, [.evNotifyAll])) ∧
    (c.threads t = .wBlocked → c2.threads t = .wWake) ∧
    (c.threads t = .wWake → c2.threads t = .wCheck) ∧
    (c.threads t = .wCheck → c.childState = .NotWaiting → c2.threads t = .wSys) :=
  ⟨fun os e inj => rfl,
   fun h => step_self_wBlocked hs h,
   fun h => step_self_wWake hs h,
   fun h h2 => step_self_wCheck_notWaiting hs h h2⟩

/-- C8 witness: a queued thread is woken (it does not return a
result). -/
theorem queued_threads_retry_witness :
    ({ w8 with threads := Function.update w8.threads 0 .wWake } : Config 1).threads 0
      = .wWake :=
  (queued_threads_retry w8 _ 0 (Step.wWakeup w8 0 rfl)).2.1 rfl

/-- C9: when the state is `NotWaiting` and the platform poll fails,
`try_wait` returns that error, the coordinator state is unchanged
(still `NotWaiting`) and the OS state is unchanged. -/
theorem try_wait_error_frame (os : OsProc) (e : IoErr) :
    SharedChild.try_wait .NotWaiting os (some e)
      = (.NotWaiting, os, .error e, [.evTryWait]) := rfl

/-- C10: with the state `Exited(status)` at entry, `wait` returns
`Ok(status)` and `try_wait` returns `Ok(Some(status))` with an empty
event log: no platform poll, no blocking wait, no signal, no condvar
notification, and no change to the coordinator or OS state. -/
theorem exited_entry_frame (s : ExitStatus) (os : OsProc) (i1 i2 i3 : Option IoErr) :
    SharedChild.wait (.Exited s) os i1 i2 = some (.Exited s, os, .ok s, []) ∧
    SharedChild.try_wait (.Exited s) os i3 = (.Exited s, os, .ok (some s), []) :=
  ⟨rfl, rfl⟩

end Proto

section SequentialChecks

example : SharedChild.try_wait .NotWaiting (.exited 3) none
    = (.Exited 3, .reaped 3, .ok (some 3), [.evTryWait]) := rfl

example : SharedChild.wait .NotWaiting (.exited 7) none none
    = some (.Exited 7, .reaped 7, .ok 7, [.evBlockingWait, .evTryWait, .evNotifyAll]) := rfl

example : SharedChild.wait .NotWaiting .running none none = none := rfl

end SequentialChecks
